import Mathlib

/-!
# Mainflux: stream consumer, event dispatcher and graceful server monitor

A shallow embedding of

* `bootstrap/redis/consumer/streams.go` (`Subscribe`, `Stop`, the `decode*` and
  `handle*` functions, `read`),
* `internal/pkg/server/monitor.go` (`Monitor`), `http.go` and `grpc.go` (`Start`, `Stop`),
* `users/users.go` (`Validate`, `isEmail`, `emailRe`),

followed by theorems about them.

Conventions of the embedding.

* A Go `error` is a `GoError`; `Option GoError` is a possibly-nil error.
* A Go `interface{}` is a `Value`.
* External collaborators (the configuration service, the registered servers)
  are state transformers over an arbitrary world type, so that every possible
  sequence of outcomes is covered.
* Every externally visible action of the embedded code is appended to a trace
  of `Effect`s, in program order.
* Goroutines are interleaved by an explicit schedule: a list of events, each of
  which is one atomic step of one goroutine.
* In the package `users` a Go `string` is the list of its bytes, and a regular
  expression is matched against the code points decoded from them.
-/

namespace Mainflux

/-! ## Go values -/

/-- A Go `error`: `kind` stands for the dynamic type, `msg` is what `Error()` returns. -/
structure GoError where
  kind : Nat
  msg : String
deriving DecidableEq, Repr

/-- A Go `interface{}` value. `other` stands for any value that is neither nil, a string,
a number nor a boolean (nested arrays and maps), identified by its rendering. -/
inductive Value where
  | nil
  | str (s : String)
  | num (n : Int)
  | bool (b : Bool)
  | other (rendering : String)
deriving DecidableEq, Repr

/-- Levels of `logger.Logger`. -/
inductive Level where
  | debug
  | info
  | warn
  | error
deriving DecidableEq, Repr

/-- Go `time.Duration`: a number of nanoseconds. -/
abbrev Duration := Nat

/-- Go `time.Second`. -/
def Second : Duration := 1000000000

namespace consumer

/-! ## `bootstrap/redis/consumer/streams.go`: constants and data -/

def stream : String := "mainflux.things"
def group : String := "mainflux.bootstrap"

def thingPrefix : String := "thing."
def thingRemove : String := thingPrefix ++ "remove"
def thingDisconnect : String := thingPrefix ++ "disconnect"

def channelPrefix : String := "channel."
def channelUpdate : String := channelPrefix ++ "update"
def channelRemove : String := channelPrefix ++ "remove"

def «exists» : String := "BUSYGROUP Consumer Group name already exists"

/-- The shutdown token `req` (`iota + 1`) of type `shutdownSignal`. -/
def req : Nat := 1
/-- The shutdown token `ack`. -/
def ack : Nat := 2

/-- Go `map[string]interface{}` as an association list; the first binding of a key counts. -/
abbrev Values := List (String × Value)

/-- Go map indexing `event[key]`: the nil interface when the key is missing. -/
def index (event : Values) (key : String) : Value :=
  (event.lookup key).getD Value.nil

/-- A `map[string]interface{}` that may be the nil map (`none`). -/
abbrev Metadata := Option (List (String × Value))

/-- The `redis.XMessage` of the client library. -/
structure XMessage where
  ID : String
  Values : Values
deriving DecidableEq, Repr

/-- The `redis.XStream` of the client library. -/
structure XStream where
  Stream : String
  Messages : List XMessage
deriving DecidableEq, Repr

structure removeEvent where
  id : String
deriving DecidableEq, Repr

structure updateChannelEvent where
  id : String
  name : String
  metadata : Metadata
deriving DecidableEq, Repr

structure disconnectEvent where
  channelID : String
  thingID : String
deriving DecidableEq, Repr

/-- The `bootstrap.Channel` record, with the three fields `handleUpdateChannel` sets. -/
structure Channel where
  ID : String
  Name : String
  Metadata : Metadata
deriving DecidableEq, Repr

/-! ## `encoding/json` -/

/-- The part of `encoding/json` that `json.Unmarshal` relies on: the syntax check and the
mapping encoded by a text that is a JSON object. -/
structure JsonLib where
  checkValid : String → Bool
  object : String → Option (List (String × Value))

/-- The second argument of `json.Unmarshal` when it concerns a `map[string]interface{}`:
the map itself, or a pointer to a variable holding it. -/
inductive Dest where
  | mapValue (m : Metadata)
  | mapPointer (m : Metadata)
deriving DecidableEq, Repr

def syntaxError : GoError := ⟨1, "invalid character"⟩
def invalidUnmarshalError : GoError := ⟨2, "json: Unmarshal(non-pointer map[string]interface \x7b\x7d)"⟩
def unmarshalTypeError : GoError := ⟨3, "json: cannot unmarshal into Go value of type map[string]interface \x7b\x7d"⟩

/-- The contract of `json.Unmarshal(data, v)`: a syntax error is reported first; then
"if v is nil or not a pointer, Unmarshal returns an InvalidUnmarshalError"; otherwise a JSON
object is stored into the map behind the pointer. Returns the error and the map that the
caller's variable holds afterwards. -/
def jsonUnmarshal (lib : JsonLib) (data : String) (v : Dest) : Option GoError × Metadata :=
  match v with
  | .mapValue m =>
    if lib.checkValid data then (some invalidUnmarshalError, m) else (some syntaxError, m)
  | .mapPointer m =>
    if lib.checkValid data then
      match lib.object data with
      | some kv => (none, some (kv ++ m.getD []))
      | none => if data.trim = "null" then (none, m) else (some unmarshalTypeError, m)
    else (some syntaxError, m)

/-! ## Decoding -/

/-- `read(event, key, def)`: the type assertion `event[key].(string)` with a default. -/
def read (event : Values) (key dflt : String) : String :=
  match index event key with
  | .str val => val
  | _ => dflt

def decodeRemoveThing (event : Values) : removeEvent :=
  { id := read event "id" "" }

/-- `decodeUpdateChannel`: `metadata` is declared as a nil map and handed to
`json.Unmarshal` by value. -/
def decodeUpdateChannel (lib : JsonLib) (event : Values) : updateChannelEvent :=
  let strmeta := read event "metadata" "\x7b\x7d"
  let metadata : Metadata := none
  let r := jsonUnmarshal lib strmeta (.mapValue metadata)
  let metadata : Metadata := if r.1.isSome then some [] else r.2
  { id := read event "id" ""
    name := read event "name" ""
    metadata := metadata }

def decodeRemoveChannel (event : Values) : removeEvent :=
  { id := read event "id" "" }

def decodeDisconnectThing (event : Values) : disconnectEvent :=
  { channelID := read event "chan_id" ""
    thingID := read event "thing_id" "" }

/-! ## Effects and the configuration service -/

/-- A call of one of the four handlers of `bootstrap.Service` that the consumer uses. -/
inductive Call where
  | RemoveConfigHandler (id : String)
  | DisconnectThingHandler (channelID thingID : String)
  | UpdateChannelHandler (channel : Channel)
  | RemoveChannelHandler (id : String)
deriving DecidableEq, Repr

/-- Externally visible actions of the consumer. -/
inductive Effect where
  | handler (c : Call)
  | XGroupCreateMkStream (stream group start : String)
  | XReadGroup (group consumer : String) (streams : List String) (count : Nat)
  | XAck (stream group id : String)
  | log (level : Level) (msg : String)
  | sendShutdownC (tok : Nat)
deriving DecidableEq, Repr

/-- The `bootstrap.Service` collaborator over a world `σ`: each handler returns its error
(or nil) and the new world. -/
structure Service (σ : Type) where
  RemoveConfigHandler : String → σ → Option GoError × σ
  DisconnectThingHandler : String → String → σ → Option GoError × σ
  UpdateChannelHandler : Channel → σ → Option GoError × σ
  RemoveChannelHandler : String → σ → Option GoError × σ

/-- What one step of the consumer yields: an error or nil, the new world, the effects. -/
structure Outcome (σ : Type) where
  err : Option GoError
  world : σ
  trace : List Effect

def handleRemoveThing {σ : Type} (svc : Service σ) (rte : removeEvent) (w : σ) : Outcome σ :=
  let r := svc.RemoveConfigHandler rte.id w
  ⟨r.1, r.2, [.handler (.RemoveConfigHandler rte.id)]⟩

def handleUpdateChannel {σ : Type} (svc : Service σ) (uce : updateChannelEvent) (w : σ) :
    Outcome σ :=
  let channel : Channel := { ID := uce.id, Name := uce.name, Metadata := uce.metadata }
  let r := svc.UpdateChannelHandler channel w
  ⟨r.1, r.2, [.handler (.UpdateChannelHandler channel)]⟩

def handleRemoveChannel {σ : Type} (svc : Service σ) (rce : removeEvent) (w : σ) : Outcome σ :=
  let r := svc.RemoveChannelHandler rce.id w
  ⟨r.1, r.2, [.handler (.RemoveChannelHandler rce.id)]⟩

def handleDisconnectThing {σ : Type} (svc : Service σ) (dte : disconnectEvent) (w : σ) :
    Outcome σ :=
  let r := svc.DisconnectThingHandler dte.channelID dte.thingID w
  ⟨r.1, r.2, [.handler (.DisconnectThingHandler dte.channelID dte.thingID)]⟩

/-- The `switch event["operation"]` of `Subscribe`: `err` stays nil when no case matches. -/
def dispatch {σ : Type} (lib : JsonLib) (svc : Service σ) (event : Values) (w : σ) :
    Outcome σ :=
  match index event "operation" with
  | .str op =>
    if op = thingRemove then handleRemoveThing svc (decodeRemoveThing event) w
    else if op = thingDisconnect then handleDisconnectThing svc (decodeDisconnectThing event) w
    else if op = channelUpdate then handleUpdateChannel svc (decodeUpdateChannel lib event) w
    else if op = channelRemove then handleRemoveChannel svc (decodeRemoveChannel event) w
    else ⟨none, w, []⟩
  | _ => ⟨none, w, []⟩

/-- The loop `for _, msg := range streams[0].Messages`: dispatch, then either warn and
`break`, or acknowledge and go on with the next message. Returns the world and the effects. -/
def processMessages {σ : Type} (lib : JsonLib) (svc : Service σ) :
    List XMessage → σ → σ × List Effect
  | [], w => (w, [])
  | msg :: rest, w =>
    let r := dispatch lib svc msg.Values w
    match r.err with
    | some err =>
      (r.world, r.trace ++ [.log .warn ("Failed to handle event sourcing: " ++ err.msg)])
    | none =>
      let k := processMessages lib svc rest r.world
      (k.1, r.trace ++ [.XAck stream group msg.ID] ++ k.2)

/-! ## `Subscribe` -/

/-- The receiver of the methods; `svc`, `client` and `logger` are the collaborators of the
embedding (service, schedule and trace), `shutdownC` is the schedule's hand-off events. -/
structure eventStore where
  consumer : String
deriving DecidableEq, Repr

/-- What `XReadGroup(...).Result()` returns. -/
structure ReadResult where
  streams : List XStream
  err : Option GoError
deriving DecidableEq, Repr

/-- Where the goroutine that called `Subscribe` stands. -/
inductive Status where
  /-- blocked in the `select` of the `for` loop -/
  | selecting
  /-- blocked in `es.shutdownC <- ack` -/
  | sendingAck
  /-- `Subscribe` has returned this error (or nil) -/
  | returned (err : Option GoError)
  /-- index out of range in `streams[0]` -/
  | panicked
deriving DecidableEq, Repr

/-- One atomic step of one of the two goroutines of `Subscribe`. -/
inductive Sched where
  /-- the reader goroutine runs one iteration: `XReadGroup` answers `r` -/
  | read (r : ReadResult)
  /-- the `select` takes `case shutdonwReq := <-es.shutdownC` with this value -/
  | recvShutdown (tok : Nat)
  /-- the `select` takes `case streams := <-streamsChan` and handles the batch -/
  | recvStreams
  /-- some receiver takes the value offered by `es.shutdownC <- ack` -/
  | ackTaken
deriving DecidableEq, Repr

structure LoopState (σ : Type) where
  status : Status
  /-- the value the reader goroutine is blocked sending on `streamsChan`, if any -/
  pending : Option (List XStream)
  world : σ
  trace : List Effect

/-- Format verb `%+v` applied to an `error`. -/
def fmtErr : Option GoError → String
  | none => "<nil>"
  | some e => e.msg

/-- One iteration of the reader goroutine. It cannot run while its previous batch has not
been taken from the unbuffered `streamsChan`. -/
def readerStep {σ : Type} (es : eventStore) (s : LoopState σ) (r : ReadResult) : LoopState σ :=
  match s.pending with
  | some _ => s
  | none =>
    let t := [Effect.log .info "XReadGroup - reading",
              Effect.XReadGroup group es.consumer [stream, ">"] 100,
              Effect.log .info ("XReadGroup - reading err: " ++ fmtErr r.err)]
    if r.err.isSome || r.streams.length == 0 then
      { s with trace := s.trace ++ t }
    else
      { s with trace := s.trace ++ t ++ [Effect.log .info "XReadGroup - read"],
               pending := some r.streams }

/-- One step of the system made of the `for`/`select` loop and the reader goroutine. An event
that is not enabled in the current state leaves it unchanged. -/
def step {σ : Type} (lib : JsonLib) (svc : Service σ) (es : eventStore) (s : LoopState σ) :
    Sched → LoopState σ
  | .read r => readerStep es s r
  | .recvShutdown tok =>
    match s.status with
    | .selecting =>
      if tok ≠ req then
        { s with trace := s.trace ++
            [Effect.log .error "Received unexpected shutdown request: 1. Continuing ..."] }
      else
        { s with status := .sendingAck,
                 trace := s.trace ++
            [Effect.log .info "Event source listener received shutdown signal"] }
    | _ => s
  | .ackTaken =>
    match s.status with
    | .sendingAck =>
      { s with status := .returned none, trace := s.trace ++ [Effect.sendShutdownC ack] }
    | _ => s
  | .recvStreams =>
    match s.status, s.pending with
    | .selecting, some [] => { s with status := .panicked, pending := none }
    | .selecting, some (st :: _) =>
      let k := processMessages lib svc st.Messages s.world
      { s with pending := none, world := k.1, trace := s.trace ++ k.2 }
    | _, _ => s

/-- The state in which the `for` loop is entered. -/
def loopStart {σ : Type} (w : σ) : LoopState σ :=
  ⟨.selecting, none, w, [Effect.XGroupCreateMkStream stream group "$"]⟩

/-- `Subscribe(subject)`: `createErr` is what `XGroupCreateMkStream(...).Err()` answers and
`sched` the steps taken by the goroutines afterwards. -/
def Subscribe {σ : Type} (lib : JsonLib) (svc : Service σ) (es : eventStore)
    (_subject : String) (createErr : Option GoError) (sched : List Sched) (w : σ) :
    LoopState σ :=
  match createErr with
  | some err =>
    if err.msg ≠ «exists» then
      ⟨.returned (some err), none, w, [Effect.XGroupCreateMkStream stream group "$"]⟩
    else sched.foldl (step lib svc es) (loopStart w)
  | none => sched.foldl (step lib svc es) (loopStart w)

/-! ## `Stop` -/

/-- Where the goroutine that called `Stop` stands. -/
inductive StopPc where
  /-- blocked in `es.shutdownC <- req` -/
  | sendingReq
  /-- blocked in the `select` over `es.shutdownC` and `t.C` -/
  | selecting
  | returned (err : Option GoError)
deriving DecidableEq, Repr

structure StopState where
  pc : StopPc
  /-- the timer has expired: a value is waiting in `t.C` -/
  fired : Bool
  trace : List Effect
deriving DecidableEq, Repr

def unexpectedResponse (resp : Nat) : GoError :=
  ⟨0, "Event source listener received enexpected shutdown request response: " ++ toString resp⟩

def timeoutError : GoError :=
  ⟨0, "Event source listener graceful shutdown timeout - forced exit"⟩

/-- The state of `Stop` once it has logged and reached the send of `req`. -/
def stopStart : StopState :=
  ⟨.sendingReq, false, [Effect.log .info "Stopping event source listener"]⟩

/-- The send `es.shutdownC <- req` completes. -/
def stopReqTaken (s : StopState) : StopState :=
  match s.pc with
  | .sendingReq => { s with pc := .selecting, trace := s.trace ++ [Effect.sendShutdownC req] }
  | _ => s

/-- The `select` takes `case resp := <-es.shutdownC`. -/
def stopRecvResp (s : StopState) (resp : Nat) : StopState :=
  match s.pc with
  | .selecting =>
    if resp ≠ ack then { s with pc := .returned (some (unexpectedResponse resp)) }
    else { s with pc := .returned none,
                  trace := s.trace ++
                    [Effect.log .info "Event source listener stopped without errors"] }
  | _ => s

/-- The `select` takes `case <-t.C`, which needs the timer to have expired. -/
def stopRecvTimer (s : StopState) : StopState :=
  match s.pc, s.fired with
  | .selecting, true => { s with pc := .returned (some timeoutError) }
  | _, _ => s

/-- An event store with at most one `Subscribe` running and one `Stop` under way. -/
structure System (σ : Type) where
  loop : Option (LoopState σ)
  stop : StopState

/-- One atomic step of the system of `Subscribe` and `Stop` sharing `es.shutdownC`. -/
inductive SysEvent where
  /-- the reader goroutine runs one iteration -/
  | read (r : ReadResult)
  /-- the loop takes a batch from `streamsChan` -/
  | recvStreams
  /-- `timeout` has elapsed since `time.NewTimer(timeout)` -/
  | timerFires
  /-- the send of `req` in `Stop` meets the receive in the loop's `select` -/
  | handoffReq
  /-- the send of `ack` in the loop meets the receive in the `select` of `Stop` -/
  | handoffAck
  /-- the `select` of `Stop` takes the timer case -/
  | recvTimer
deriving DecidableEq, Repr

/-- One step of the system; an event that is not enabled leaves the state unchanged. A send
on the unbuffered `es.shutdownC` is enabled only when the other side is at its receive. -/
def sysStep {σ : Type} (lib : JsonLib) (svc : Service σ) (es : eventStore) (s : System σ) :
    SysEvent → System σ
  | .read r => { s with loop := s.loop.map (fun l => step lib svc es l (.read r)) }
  | .recvStreams => { s with loop := s.loop.map (fun l => step lib svc es l .recvStreams) }
  | .timerFires => { s with stop := { s.stop with fired := true } }
  | .handoffReq =>
    match s.loop, s.stop.pc with
    | some l, .sendingReq =>
      match l.status with
      | .selecting => ⟨some (step lib svc es l (.recvShutdown req)), stopReqTaken s.stop⟩
      | _ => s
    | _, _ => s
  | .handoffAck =>
    match s.loop, s.stop.pc with
    | some l, .selecting =>
      match l.status with
      | .sendingAck => ⟨some (step lib svc es l .ackTaken), stopRecvResp s.stop ack⟩
      | _ => s
    | _, _ => s
  | .recvTimer => { s with stop := stopRecvTimer s.stop }

/-- `Stop(logger, timeout)` run against the loop `loop` (or against no loop at all) under the
schedule `sched`. The duration only decides when `timerFires` occurs in the schedule. -/
def Stop {σ : Type} (lib : JsonLib) (svc : Service σ) (es : eventStore)
    (loop : Option (LoopState σ)) (sched : List SysEvent) : System σ :=
  sched.foldl (sysStep lib svc es) ⟨loop, stopStart⟩

/-! ## Vocabulary of the statements -/

/-- The identifiers of the `XAck` calls of a trace, in order. -/
def ackedIDs (t : List Effect) : List String :=
  t.filterMap (fun e => match e with
    | .XAck _ _ id => some id
    | _ => none)

/-- The handler calls of a trace, in order. -/
def handlerCalls (t : List Effect) : List Call :=
  t.filterMap (fun e => match e with
    | .handler c => some c
    | _ => none)

/-- The `XReadGroup` calls of a trace. -/
def readCalls (t : List Effect) : List Effect :=
  t.filter (fun e => match e with
    | .XReadGroup _ _ _ _ => true
    | _ => false)

/-- The world in which message `i` of a batch is dispatched when all the messages before it
have been dispatched. -/
def worldBefore {σ : Type} (lib : JsonLib) (svc : Service σ) (msgs : List XMessage) (w : σ)
    (i : Nat) : σ :=
  (msgs.take i).foldl (fun s m => (dispatch lib svc m.Values s).world) w

/-- The error (or nil) that the dispatch of message `i` of a batch returns; `none` when the
batch has no message `i`. -/
def resultAt {σ : Type} (lib : JsonLib) (svc : Service σ) (msgs : List XMessage) (w : σ)
    (i : Nat) : Option (Option GoError) :=
  msgs[i]?.map (fun m => (dispatch lib svc m.Values (worldBefore lib svc msgs w i)).err)

/-- The string field `field` of a decoded event follows the payload under `key`: it is the
payload value when that value is a string, and the empty string when the key is missing or
bound to a value that is not a string. -/
def FollowsPayload (event : Values) (key : String) (field : String) : Prop :=
  (∀ s, event.lookup key = some (Value.str s) → field = s) ∧
  (event.lookup key = none → field = "") ∧
  (∀ v, event.lookup key = some v → (∀ s, v ≠ Value.str s) → field = "")

/-! ## Fixtures for the scenarios -/

/-- A JSON library that knows two texts: the empty object and the object with `k` set to 1. -/
def demoJson : JsonLib where
  checkValid := fun data => data = "\x7b\x7d" || data = "\x7b\"k\":1\x7d"
  object := fun data =>
    if data = "\x7b\x7d" then some []
    else if data = "\x7b\"k\":1\x7d" then some [("k", Value.num 1)]
    else none

/-- A configuration service whose handlers fail exactly on the identifier `bad`; its world
is the list of calls it has received, latest first. -/
def demoService : Service (List Call) where
  RemoveConfigHandler := fun id w =>
    if id = "bad" then (some (GoError.mk 0 "remove failed"), Call.RemoveConfigHandler id :: w)
    else (none, Call.RemoveConfigHandler id :: w)
  DisconnectThingHandler := fun c t w =>
    if t = "bad" then
      (some (GoError.mk 0 "disconnect failed"), Call.DisconnectThingHandler c t :: w)
    else (none, Call.DisconnectThingHandler c t :: w)
  UpdateChannelHandler := fun ch w =>
    if ch.ID = "bad" then (some (GoError.mk 0 "update failed"), Call.UpdateChannelHandler ch :: w)
    else (none, Call.UpdateChannelHandler ch :: w)
  RemoveChannelHandler := fun id w =>
    if id = "bad" then (some (GoError.mk 0 "remove failed"), Call.RemoveChannelHandler id :: w)
    else (none, Call.RemoveChannelHandler id :: w)

/-- Three `thing.remove` messages, the handler failing on the second. -/
def batchSecondFails : List XMessage :=
  [⟨"1-0", [("operation", .str "thing.remove"), ("id", .str "t1")]⟩,
   ⟨"2-0", [("operation", .str "thing.remove"), ("id", .str "bad")]⟩,
   ⟨"3-0", [("operation", .str "thing.remove"), ("id", .str "t3")]⟩]

/-- The two messages of the scenario of the specification. -/
def batchScenario : List XMessage :=
  [⟨"1-0", [("operation", .str "thing.remove"), ("id", .str "t1")]⟩,
   ⟨"2-0", [("operation", .str "channel.update"), ("id", .str "c1"), ("name", .str "n"),
            ("metadata", .str "\x7b\"k\":1\x7d")]⟩]

/-- The stream and group names that the Redis calls of a trace are made on, in order: the
stream and group of each `XGroupCreateMkStream` and `XAck`, and for each `XReadGroup` its
group and the first entry of its `Streams`. -/
def targets (t : List Effect) : List (String × String) :=
  t.filterMap (fun e => match e with
    | .XGroupCreateMkStream s g _ => some (s, g)
    | .XReadGroup g _ streams _ => some (streams.headD "", g)
    | .XAck s g _ => some (s, g)
    | _ => none)

/-- A schedule that meets a read error, an empty read, a batch whose second handler fails
and a token that is not `req`. -/
def schedTroubles : List Sched :=
  [Sched.read ⟨[], some ⟨0, "connection reset"⟩⟩,
   Sched.read ⟨[], none⟩,
   Sched.read ⟨[⟨"mainflux.things", batchSecondFails⟩], none⟩,
   Sched.recvStreams,
   Sched.recvShutdown 7]

/-- The handler invocation made for message `i` of a batch when the loop reaches it: the
effects of its dispatch, none when the batch has no message `i`. -/
def handlerAt {σ : Type} (lib : JsonLib) (svc : Service σ) (msgs : List XMessage) (w : σ)
    (i : Nat) : List Effect :=
  match msgs[i]? with
  | none => []
  | some m => (dispatch lib svc m.Values (worldBefore lib svc msgs w i)).trace

/-- The acknowledge of message `i` of a batch, none when the batch has no message `i`. -/
def ackAt (msgs : List XMessage) (i : Nat) : List Effect :=
  match msgs[i]? with
  | none => []
  | some m => [Effect.XAck stream group m.ID]

/-- The warning logged for message `i` of a batch when its dispatch fails. -/
def warnAt {σ : Type} (lib : JsonLib) (svc : Service σ) (msgs : List XMessage) (w : σ)
    (i : Nat) : List Effect :=
  match resultAt lib svc msgs w i with
  | some (some err) => [Effect.log .warn ("Failed to handle event sourcing: " ++ err.msg)]
  | _ => []

end consumer

namespace server

/-! ## `internal/pkg/server/monitor.go` -/

def defaultServerStopTimeout : Duration := 30 * Second

/-- Externally visible actions of `Monitor`: its own log lines and its calls of
`servers[i].Stop(log, timeout)`. -/
inductive Effect where
  | log (level : Level) (msg : String)
  | Stop (i : Nat) (timeout : Duration)
deriving DecidableEq, Repr

/-- The `GracefulServer` interface over a world `ω`: `Stop` returns its error (or nil) and
the new world. -/
structure GracefulServer (ω : Type) where
  Stop : Duration → ω → Option GoError × ω

/-- What the `select` of `Monitor` can receive. -/
inductive Event where
  /-- a value on `signalChan`, given by its `String()` -/
  | signal (receivedSignal : String)
  /-- a value on `errChan` -/
  | error (err : Option GoError)
deriving DecidableEq, Repr

/-- Format verb `%s` applied to an `error`. -/
def fmtS : Option GoError → String
  | none => "%!s(<nil>)"
  | some e => e.msg

structure Run (ω : Type) where
  returned : Bool
  world : ω
  trace : List Effect

/-- The loop `for _, srv := range servers`, from the server of index `i` on. -/
def stopServers {ω : Type} : List (GracefulServer ω) → Nat → ω → ω × List Effect
  | [], _, w => (w, [])
  | srv :: rest, i, w =>
    let r := srv.Stop defaultServerStopTimeout w
    let t := match r.1 with
      | some err => [Effect.Stop i defaultServerStopTimeout,
                     Effect.log .error ("Error during server stop: " ++ err.msg)]
      | none => [Effect.Stop i defaultServerStopTimeout]
    let k := stopServers rest (i + 1) r.2
    (k.1, t ++ k.2)

/-- `Monitor(log, errChan, servers...)`: `events` are the values that become available to the
`select`, in order; with none the call stays blocked. -/
def Monitor {ω : Type} (events : List Event) (servers : List (GracefulServer ω)) (w : ω) :
    Run ω :=
  let t0 := [Effect.log .info "Graceful server monitor started"]
  match events with
  | [] => ⟨false, w, t0⟩
  | .signal receivedSignal :: _ =>
    let k := stopServers servers 0 w
    ⟨true, k.1, t0 ++ [Effect.log .info ("Received signal: " ++ receivedSignal)] ++ k.2 ++
      [Effect.log .info "Graceful server monitor exit"]⟩
  | .error err :: _ =>
    ⟨true, w, t0 ++
      [Effect.log .error ("Graceful server monitor exiting due to error: " ++ fmtS err)]⟩

/-- The `Stop` calls of a trace, in order. -/
def stopCalls (t : List Effect) : List Effect :=
  t.filter (fun e => match e with
    | .Stop _ _ => true
    | _ => false)

/-- The log lines of a trace, in order. -/
def logLines (t : List Effect) : List (Level × String) :=
  t.filterMap (fun e => match e with
    | .log level msg => some (level, msg)
    | _ => none)

/-- What each server answers to `Stop` when the servers are stopped in order, each in the
world the previous ones leave. -/
def stopResults {ω : Type} : List (GracefulServer ω) → ω → List (Option GoError)
  | [], _ => []
  | srv :: rest, w =>
    (srv.Stop defaultServerStopTimeout w).1 ::
      stopResults rest (srv.Stop defaultServerStopTimeout w).2

/-! ## `internal/pkg/server/http.go` and `grpc.go` -/

/-- Externally visible actions of the HTTP and gRPC servers. -/
inductive Action where
  | log (level : Level) (msg : String)
  /-- the call `s.ListenAndServeTLS(certFile, keyFile)` -/
  | ListenAndServeTLS (addr certFile keyFile : String)
  /-- the call `s.ListenAndServe()` -/
  | ListenAndServe (addr : String)
  /-- the call `s.Shutdown(ctx)`, with the timeout of `ctx` -/
  | Shutdown (addr : String) (timeout : Duration)
  /-- the send `errs <- err` -/
  | sendErrs (err : Option GoError)
  /-- the call `registerServiceFn()` -/
  | registerServiceFn
  /-- the call `net.Listen(network, address)` -/
  | Listen (network address : String)
  /-- the call `s.Serve(listener)` -/
  | Serve (address : String)
  /-- the goroutine calling `s.GracefulStop()` is started -/
  | GracefulStop (address : String)
deriving DecidableEq, Repr

/-- The fields of `HTTPServer` that `Start` and `Stop` read; `Addr` is that of the embedded
`http.Server`. -/
structure HTTPServer where
  Addr : String
  certPath : String
  keyPath : String
deriving DecidableEq, Repr

def NewHTTPServer (address : String) (certPath : String) (keyPath : String) : HTTPServer :=
  { Addr := address, certPath := certPath, keyPath := keyPath }

/-- Format verb `%q` on a string without characters to escape. -/
def fmtQ (s : String) : String := "\"" ++ s ++ "\""

/-- `HTTPServer.Start(log, errs)`: `served` is what the blocking serve call returns, or
`none` while it has not returned. -/
def HTTPServer.Start (s : HTTPServer) (served : Option (Option GoError)) : List Action :=
  if s.certPath ≠ "" ∨ s.keyPath ≠ "" then
    [Action.log .info ("HTTPS service started on address " ++ s.Addr ++ ", cert " ++
        s.certPath ++ " key " ++ s.keyPath),
     Action.ListenAndServeTLS s.Addr s.certPath s.keyPath] ++
    (match served with
      | some err => [Action.sendErrs err]
      | none => [])
  else
    [Action.log .info ("HTTP service started on address " ++ s.Addr),
     Action.ListenAndServe s.Addr] ++
    (match served with
      | some err => [Action.sendErrs err]
      | none => [])

/-- The value `context.DeadlineExceeded`. -/
def DeadlineExceeded : GoError := ⟨4, "context deadline exceeded"⟩

/-- `HTTPServer.Stop(log, timeout)`: `shutdownErr` is what `s.Shutdown(ctx)` returns. -/
def HTTPServer.Stop (s : HTTPServer) (timeout : Duration) (shutdownErr : Option GoError) :
    Option GoError × List Action :=
  let t0 := [Action.log .info ("Stopping http server on " ++ fmtQ s.Addr),
             Action.Shutdown s.Addr timeout]
  if shutdownErr = some DeadlineExceeded then
    (none, t0 ++
      [Action.log .error "HTTP shutdown timeout - existing connections are not completed yet",
       Action.log .info ("HTTP server on " ++ fmtQ s.Addr ++ " stopped")])
  else
    match shutdownErr with
    | some err => (some ⟨0, "Error stopping http server: " ++ err.msg⟩, t0)
    | none => (none, t0 ++ [Action.log .info ("HTTP server on " ++ fmtQ s.Addr ++ " stopped")])

/-- The field of `GRPCServer` that `Start` and `Stop` read. -/
structure GRPCServer where
  address : String
deriving DecidableEq, Repr

/-- `GRPCServer.Start(log, errs, registerServiceFn)`: a nil function is `none`, a function
acts on the world; `listenErr` is the error of `net.Listen` and `served` what the blocking
`s.Serve(listener)` returns, or `none` while it has not returned. -/
def GRPCServer.Start {ω : Type} (s : GRPCServer) (registerServiceFn : Option (ω → ω))
    (listenErr : Option GoError) (served : Option (Option GoError)) (w : ω) :
    ω × List Action :=
  match registerServiceFn with
  | none => (w, [Action.sendErrs (some ⟨0, "Register service function is nil"⟩)])
  | some f =>
    match listenErr with
    | some err =>
      (f w, [Action.registerServiceFn, Action.Listen "tcp" s.address,
             Action.sendErrs (some ⟨0, "Failed to listen on address " ++ s.address ++ ": " ++
               err.msg⟩)])
    | none =>
      (f w, [Action.registerServiceFn, Action.Listen "tcp" s.address,
             Action.log .info ("gRPC service started on " ++ s.address),
             Action.Serve s.address] ++
            (match served with
              | some err => [Action.sendErrs err]
              | none => []))

/-- What the `select` of `GRPCServer.Stop` receives first. -/
inductive StopEvent where
  /-- `serverStopped` is closed: `GracefulStop` has returned -/
  | serverStopped
  /-- `ctx.Done()`: the timeout has elapsed -/
  | ctxDone
deriving DecidableEq, Repr

/-- `GRPCServer.Stop(log, timeout)`: `fmtV` renders the duration as the verb `%v` does. -/
def GRPCServer.Stop (s : GRPCServer) (fmtV : Duration → String) (timeout : Duration)
    (ev : StopEvent) : Option GoError × List Action :=
  let t0 := [Action.log .info ("Stopping gRPC server on " ++ fmtQ s.address),
             Action.GracefulStop s.address]
  match ev with
  | .serverStopped =>
    (none, t0 ++ [Action.log .info ("gRPC server on " ++ fmtQ s.address ++ " stopped")])
  | .ctxDone =>
    (none, t0 ++
      [Action.log .error ("Stop timeout of " ++ fmtV timeout ++
          " exceeded - some calls are still active"),
       Action.log .info ("gRPC server on " ++ fmtQ s.address ++ " stopped")])

end server

namespace users

/-! ## `users/users.go` -/

/-- A Go `string`: the list of its bytes, each below 256. -/
abbrev Bytes := List Nat

/-- The bytes of one code point in UTF-8, as the compiler lays out a string literal. -/
def encodeRune (r : Nat) : Bytes :=
  if r < 0x80 then [r]
  else if r < 0x800 then [0xC0 + r / 64, 0x80 + r % 64]
  else if r < 0x10000 then [0xE0 + r / 4096, 0x80 + r / 64 % 64, 0x80 + r % 64]
  else [0xF0 + r / 262144, 0x80 + r / 4096 % 64, 0x80 + r / 64 % 64, 0x80 + r % 64]

/-- The Go string denoted by a literal. -/
def lit (s : String) : Bytes :=
  s.toList.flatMap (fun c => encodeRune c.toNat)

/-- The value `utf8.RuneError`. -/
def RuneError : Nat := 0xFFFD

/-- `utf8.DecodeRuneInString`: the first code point of `s` and its width in bytes; a byte
that does not start a well-formed sequence yields `RuneError` with width 1. -/
def decodeRune : Bytes → Nat × Nat
  | [] => (RuneError, 0)
  | s0 :: rest =>
    if s0 < 0x80 then (s0, 1)
    else if 0xC2 ≤ s0 ∧ s0 ≤ 0xDF then
      match rest with
      | s1 :: _ =>
        if 0x80 ≤ s1 ∧ s1 ≤ 0xBF then ((s0 % 32) * 64 + s1 % 64, 2) else (RuneError, 1)
      | [] => (RuneError, 1)
    else if 0xE0 ≤ s0 ∧ s0 ≤ 0xEF then
      match rest with
      | s1 :: s2 :: _ =>
        if (if s0 = 0xE0 then 0xA0 else 0x80) ≤ s1 ∧ s1 ≤ (if s0 = 0xED then 0x9F else 0xBF) then
          if 0x80 ≤ s2 ∧ s2 ≤ 0xBF then
            ((s0 % 16) * 4096 + (s1 % 64) * 64 + s2 % 64, 3)
          else (RuneError, 1)
        else (RuneError, 1)
      | _ => (RuneError, 1)
    else if 0xF0 ≤ s0 ∧ s0 ≤ 0xF4 then
      match rest with
      | s1 :: s2 :: s3 :: _ =>
        if (if s0 = 0xF0 then 0x90 else 0x80) ≤ s1 ∧ s1 ≤ (if s0 = 0xF4 then 0x8F else 0xBF) then
          if 0x80 ≤ s2 ∧ s2 ≤ 0xBF then
            if 0x80 ≤ s3 ∧ s3 ≤ 0xBF then
              ((s0 % 8) * 262144 + (s1 % 64) * 4096 + (s2 % 64) * 64 + s3 % 64, 4)
            else (RuneError, 1)
          else (RuneError, 1)
        else (RuneError, 1)
      | _ => (RuneError, 1)
    else (RuneError, 1)

/-- The code points that the matcher reads from `s`, one `decodeRune` after the other;
`fuel` bounds the number of code points. -/
def decodeRunesAux : Nat → Bytes → List Nat
  | 0, _ => []
  | _ + 1, [] => []
  | fuel + 1, s0 :: rest =>
    (decodeRune (s0 :: rest)).1 ::
      decodeRunesAux fuel ((s0 :: rest).drop (decodeRune (s0 :: rest)).2)

def decodeRunes (s : Bytes) : List Nat := decodeRunesAux s.length s

/-- Regular expressions over code points, as far as `emailRe` needs them: a character
class given by its inclusive ranges, concatenation, alternation and repetition. -/
inductive Regexp where
  | cls (ranges : List (Nat × Nat))
  | cat (a b : Regexp)
  | alt (a b : Regexp)
  | star (a : Regexp)
deriving Repr

/-- One or more repetitions, `a+`. -/
def Regexp.plus (a : Regexp) : Regexp := .cat a (.star a)

def inClass (ranges : List (Nat × Nat)) (r : Nat) : Bool :=
  ranges.any (fun p => p.1 ≤ r && r ≤ p.2)

/-- All the ways of cutting a list in two. -/
def splits : List Nat → List (List Nat × List Nat)
  | [] => [([], [])]
  | c :: s => ([], c :: s) :: (splits s).map (fun p => (c :: p.1, p.2))

/-- Membership in the repetition of the language decided by `m`: the text is empty, or a
non-empty first part is in `m` and the rest is in the repetition. -/
def starAccepts (m : List Nat → Bool) : Nat → List Nat → Bool
  | _, [] => true
  | 0, _ :: _ => false
  | fuel + 1, c :: s => (splits s).any (fun p => m (c :: p.1) && starAccepts m fuel p.2)

/-- Whether the whole text belongs to the language of the expression. -/
def Regexp.accepts : Regexp → List Nat → Bool
  | .cls ranges, s =>
    match s with
    | [r] => inClass ranges r
    | _ => false
  | .cat a b, s => (splits s).any (fun p => a.accepts p.1 && b.accepts p.2)
  | .alt a b, s => a.accepts s || b.accepts s
  | .star a, s => starAccepts (fun t => a.accepts t) s.length s

/-- `MatchString` for an expression written between `^` and `$` and compiled without flags:
the text matches when the whole sequence of its code points is in the language. -/
def Regexp.MatchString (re : Regexp) (s : Bytes) : Bool :=
  re.accepts (decodeRunes s)

def maxEmailLength : Nat := 254
def maxLocalLength : Nat := 64

/-- The bracket expression that opens `emailCharClass`: `[:alnum:]`, then the characters
`!`, `#`, `$`, `%`, `&`, the apostrophe and `*`, then the range from `+` to `/` (written
with a hyphen between the two), then `=`, `?`, `^`, `_`, the backquote, the two braces, the
bar and `~`. -/
def asciiClass : List (Nat × Nat) :=
  [(0x30, 0x39), (0x41, 0x5A), (0x61, 0x7A), (0x21, 0x21), (0x23, 0x23), (0x24, 0x24),
   (0x25, 0x25), (0x26, 0x26), (0x27, 0x27), (0x2A, 0x2A), (0x2B, 0x2F), (0x3D, 0x3D),
   (0x3F, 0x3F), (0x5E, 0x5E), (0x5F, 0x5F), (0x60, 0x60), (0x7B, 0x7B), (0x7C, 0x7C),
   (0x7D, 0x7D), (0x7E, 0x7E)]

/-- The class `[\x01-\x08\x0b\x0c\x0e-\x1f\x7f]` that follows it without a `|`. -/
def controlClass : List (Nat × Nat) :=
  [(0x01, 0x08), (0x0B, 0x0B), (0x0C, 0x0C), (0x0E, 0x1F), (0x7F, 0x7F)]

/-- The class `[\x{00A0}-\x{D7FF}\x{F900}-\x{FDCF}\x{FDF0}-\x{FFEF}]`. -/
def unicodeClass : List (Nat × Nat) :=
  [(0xA0, 0xD7FF), (0xF900, 0xFDCF), (0xFDF0, 0xFFEF)]

/-- The constant `emailCharClass` as the parser reads it inside `( )`: the two string
literals are concatenated, so the first alternative is the ASCII class followed by the
control class, and the other alternatives are `\x21`, `[\x23-\x5b]`, `[\x5d-\x7e]` and the
class of the code points beyond ASCII. -/
def emailCharClass : Regexp :=
  .alt (.cat (.cls asciiClass) (.cls controlClass))
    (.alt (.cls [(0x21, 0x21)])
      (.alt (.cls [(0x23, 0x5B)])
        (.alt (.cls [(0x5D, 0x7E)]) (.cls unicodeClass))))

/-- The variable `emailRe`, the expression `^(C)+(\.(C))*@(C)+(\.(C))*$` where `C` is
`emailCharClass`. -/
def emailRe : Regexp :=
  .cat emailCharClass.plus
    (.cat (.star (.cat (.cls [(0x2E, 0x2E)]) emailCharClass))
      (.cat (.cls [(0x40, 0x40)])
        (.cat emailCharClass.plus
          (.star (.cat (.cls [(0x2E, 0x2E)]) emailCharClass)))))

/-- `strings.LastIndex(s, sep)` for a separator of one byte `c`: the index of the last `c`
in `s`, or -1. -/
def LastIndex : Bytes → Nat → Int
  | [], _ => -1
  | b :: s, c =>
    if 0 ≤ LastIndex s c then LastIndex s c + 1
    else if b = c then 0
    else -1

def isEmail (email : Bytes) : Bool :=
  let atIdx := LastIndex email 0x40
  if atIdx < 1 then false
  else
    let localLength : Int := (email.take atIdx.toNat).length
    let hostLength : Int := (email.drop (atIdx.toNat + 1)).length
    let maxHostLength : Int := maxEmailLength - localLength - 1
    if email.length > maxEmailLength ∨ localLength > maxLocalLength ∨
        hostLength > maxHostLength then false
    else if !emailRe.MatchString email then false
    else true

/-- The error `ErrMalformedEntity` of the package, declared in a file that is not at hand;
only its identity matters here. -/
def ErrMalformedEntity : GoError := ⟨5, "malformed entity specification"⟩

structure User where
  Email : Bytes
  Password : Bytes
  Metadata : consumer.Metadata
deriving DecidableEq, Repr

/-- `User.Validate`: nil (`none`) or `ErrMalformedEntity`. -/
def User.Validate (u : User) : Option GoError :=
  if u.Email = [] ∨ u.Password = [] then some ErrMalformedEntity
  else if !isEmail u.Email then some ErrMalformedEntity
  else none

/-! ## Vocabulary of the statements -/

/-- The code points that `emailCharClass` accepts on their own. -/
def single (r : Nat) : Bool :=
  inClass [(0x21, 0x21)] r || inClass [(0x23, 0x5B)] r || inClass [(0x5D, 0x7E)] r ||
    inClass unicodeClass r

/-- A left-to-right check of a text against the repetition of `emailCharClass`: each code
point is accepted on its own, or is a control character that follows a code point of the
ASCII class; `prev` tells whether the code point before is in the ASCII class. -/
def scan (prev : Bool) : List Nat → Bool
  | [] => true
  | r :: rest => (single r || (inClass controlClass r && prev)) && scan (inClass asciiClass r) rest

/-- Whether `c` occurs in the text with something before and something after it. -/
def hasInner (c : Nat) (rs : List Nat) : Bool :=
  decide (c ∈ rs.tail.dropLast)

/-- The constant `email` of the tests: `user1234`, each of the special characters of the
ASCII class, then `@example.com`. -/
def email : Bytes := lit "user1234!#$%&\x27*+-/=?^_\x60\x7b|\x7d~@example.com"

def password : Bytes := lit "password"

/-- The string `sampleUtfString` of the tests: six bytes, two code points. -/
def sampleUtfString : Bytes := [0xE7, 0x94, 0xA8, 0xE6, 0x88, 0xB7]

/-- The e-mail of the test with a local part of 64 bytes. -/
def email64BLocal : Bytes :=
  sampleUtfString ++ List.replicate (64 - sampleUtfString.length) 0x61 ++ lit "@example.com"

/-- The e-mail of the test of 254 bytes. -/
def email254B : Bytes :=
  lit "user@" ++ sampleUtfString ++ List.replicate (254 - 4 - 1 - sampleUtfString.length) 0x61

/-- An e-mail of 22 code points whose local part takes 66 bytes: `sampleUtfString` eleven
times, then `@e`. -/
def email66BLocal : Bytes :=
  (List.replicate 11 sampleUtfString).flatten ++ lit "@e"

/-- The function obtained from `isEmail` by deleting the condition
`hostLength > maxHostLength` from its length check. -/
def isEmailWithoutHostCheck (email : Bytes) : Bool :=
  let atIdx := LastIndex email 0x40
  if atIdx < 1 then false
  else
    let localLength : Int := (email.take atIdx.toNat).length
    if email.length > maxEmailLength ∨ localLength > maxLocalLength then false
    else if !emailRe.MatchString email then false
    else true

/-- An e-mail of 255 bytes: `user@` and 250 times the letter `a`. -/
def email255B : Bytes := lit "user@" ++ List.replicate 250 0x61

end users

/-! # Theorems -/

namespace consumer

/-! ## Batch processing -/

theorem ackedIDs_append (a b : List Effect) : ackedIDs (a ++ b) = ackedIDs a ++ ackedIDs b := by
  simp [ackedIDs, List.filterMap_append]

theorem handlerCalls_append (a b : List Effect) :
    handlerCalls (a ++ b) = handlerCalls a ++ handlerCalls b := by
  simp [handlerCalls, List.filterMap_append]

/-- The trace of a dispatch is empty or a single handler call. -/
theorem dispatch_trace_cases {σ : Type} (lib : JsonLib) (svc : Service σ) (event : Values)
    (w : σ) :
    (dispatch lib svc event w).trace = [] ∨
      ∃ c, (dispatch lib svc event w).trace = [Effect.handler c] := by
  unfold dispatch
  split
  · split_ifs
    · exact Or.inr ⟨_, rfl⟩
    · exact Or.inr ⟨_, rfl⟩
    · exact Or.inr ⟨_, rfl⟩
    · exact Or.inr ⟨_, rfl⟩
    · exact Or.inl rfl
  · exact Or.inl rfl

theorem ackedIDs_dispatch {σ : Type} (lib : JsonLib) (svc : Service σ) (event : Values)
    (w : σ) : ackedIDs (dispatch lib svc event w).trace = [] := by
  rcases dispatch_trace_cases lib svc event w with h | ⟨c, h⟩ <;> rw [h] <;> rfl

theorem processMessages_cons_err {σ : Type} (lib : JsonLib) (svc : Service σ) (msg : XMessage)
    (rest : List XMessage) (w : σ) (err : GoError)
    (h : (dispatch lib svc msg.Values w).err = some err) :
    processMessages lib svc (msg :: rest) w =
      ((dispatch lib svc msg.Values w).world,
       (dispatch lib svc msg.Values w).trace ++
         [Effect.log .warn ("Failed to handle event sourcing: " ++ err.msg)]) := by
  simp only [processMessages, h]

theorem processMessages_cons_ok {σ : Type} (lib : JsonLib) (svc : Service σ) (msg : XMessage)
    (rest : List XMessage) (w : σ) (h : (dispatch lib svc msg.Values w).err = none) :
    processMessages lib svc (msg :: rest) w =
      ((processMessages lib svc rest (dispatch lib svc msg.Values w).world).1,
       (dispatch lib svc msg.Values w).trace ++ [Effect.XAck stream group msg.ID] ++
         (processMessages lib svc rest (dispatch lib svc msg.Values w).world).2) := by
  simp only [processMessages, h]

theorem resultAt_zero {σ : Type} (lib : JsonLib) (svc : Service σ) (msg : XMessage)
    (rest : List XMessage) (w : σ) :
    resultAt lib svc (msg :: rest) w 0 = some (dispatch lib svc msg.Values w).err := by
  simp [resultAt, worldBefore]

theorem resultAt_succ {σ : Type} (lib : JsonLib) (svc : Service σ) (msg : XMessage)
    (rest : List XMessage) (w : σ) (j : Nat) :
    resultAt lib svc (msg :: rest) w (j + 1) =
      resultAt lib svc rest (dispatch lib svc msg.Values w).world j := by
  simp [resultAt, worldBefore]

/-- An acknowledged identifier belongs to a message of the batch. -/
theorem ackedIDs_subset {σ : Type} (lib : JsonLib) (svc : Service σ) (msgs : List XMessage) :
    ∀ (w : σ) (id : String), id ∈ ackedIDs (processMessages lib svc msgs w).2 →
      id ∈ msgs.map XMessage.ID := by
  induction msgs with
  | nil => intro w id h; simp [processMessages, ackedIDs] at h
  | cons msg rest ih =>
    intro w id h
    cases hr : (dispatch lib svc msg.Values w).err with
    | some err =>
      rw [processMessages_cons_err lib svc msg rest w err hr] at h
      simp [ackedIDs_append, ackedIDs_dispatch] at h
      simp [ackedIDs] at h
    | none =>
      rw [processMessages_cons_ok lib svc msg rest w hr] at h
      simp only [ackedIDs_append, ackedIDs_dispatch, List.nil_append] at h
      have h1 : ackedIDs [Effect.XAck stream group msg.ID] = [msg.ID] := rfl
      rw [h1] at h
      simp only [List.singleton_append, List.mem_cons] at h
      rcases h with h | h
      · simp [h]
      · have := ih _ _ h
        simp only [List.map_cons, List.mem_cons]
        exact Or.inr this

/-- The acknowledged messages of a batch are those up to which every dispatch succeeded. -/
theorem ack_iff_aux {σ : Type} (lib : JsonLib) (svc : Service σ) (msgs : List XMessage) :
    ∀ (w : σ), (msgs.map XMessage.ID).Nodup → ∀ (i : Nat) (hi : i < msgs.length),
      ((msgs.get ⟨i, hi⟩).ID ∈ ackedIDs (processMessages lib svc msgs w).2 ↔
        ∀ j, j ≤ i → resultAt lib svc msgs w j = some none) := by
  induction msgs with
  | nil => intro w _ i hi; simp at hi
  | cons msg rest ih =>
    intro w hnd i hi
    have hnd1 : msg.ID ∉ rest.map XMessage.ID := (List.nodup_cons.mp hnd).1
    have hnd2 : (rest.map XMessage.ID).Nodup := (List.nodup_cons.mp hnd).2
    cases hr : (dispatch lib svc msg.Values w).err with
    | some err =>
      rw [processMessages_cons_err lib svc msg rest w err hr]
      constructor
      · intro h
        simp [ackedIDs_append, ackedIDs_dispatch] at h
        simp [ackedIDs] at h
      · intro h
        have h0 := h 0 (Nat.zero_le _)
        rw [resultAt_zero, hr] at h0
        simp at h0
    | none =>
      rw [processMessages_cons_ok lib svc msg rest w hr]
      simp only [ackedIDs_append, ackedIDs_dispatch, List.nil_append]
      have h1 : ackedIDs [Effect.XAck stream group msg.ID] = [msg.ID] := rfl
      rw [h1]
      simp only [List.singleton_append, List.mem_cons]
      cases i with
      | zero =>
        constructor
        · intro _ j hj
          have : j = 0 := Nat.le_zero.mp hj
          subst this
          rw [resultAt_zero, hr]
        · intro _
          exact Or.inl rfl
      | succ k =>
        have hk : k < rest.length := by simpa using hi
        have hget : ((msg :: rest).get ⟨k + 1, hi⟩) = rest.get ⟨k, hk⟩ := rfl
        rw [hget]
        have hne : (rest.get ⟨k, hk⟩).ID ≠ msg.ID := by
          intro heq
          apply hnd1
          rw [← heq]
          exact List.mem_map.mpr ⟨_, List.get_mem rest k hk, rfl⟩
        constructor
        · intro h j hj
          rcases h with h | h
          · exact absurd h hne
          · cases j with
            | zero => rw [resultAt_zero, hr]
            | succ j' =>
              rw [resultAt_succ]
              exact (ih _ hnd2 k hk).mp h j' (Nat.le_of_succ_le_succ hj)
        · intro h
          right
          apply (ih _ hnd2 k hk).mpr
          intro j hj
          have := h (j + 1) (Nat.succ_le_succ hj)
          rwa [resultAt_succ] at this

/-- C1. In a batch whose message identifiers are distinct, message `i` is acknowledged (an
`XAck` with its identifier is issued) if and only if its handler call is reached and returns
success, that is, the dispatch of every message up to and including `i` returns nil; and no
acknowledge is issued for a message that comes after a failing one. -/
theorem processMessages_ack_iff {σ : Type} (lib : JsonLib) (svc : Service σ)
    (msgs : List XMessage) (w : σ) (hid : (msgs.map XMessage.ID).Nodup)
    (i : Nat) (hi : i < msgs.length) :
    ((msgs.get ⟨i, hi⟩).ID ∈ ackedIDs (processMessages lib svc msgs w).2 ↔
        ∀ j, j ≤ i → resultAt lib svc msgs w j = some none) ∧
    (∀ j err, j < i → resultAt lib svc msgs w j = some (some err) →
        (msgs.get ⟨i, hi⟩).ID ∉ ackedIDs (processMessages lib svc msgs w).2) := by
  refine ⟨ack_iff_aux lib svc msgs w hid i hi, ?_⟩
  intro j err hj hfail hack
  have := (ack_iff_aux lib svc msgs w hid i hi).mp hack j (Nat.le_of_lt hj)
  rw [hfail] at this
  simp at this

/-- C1, scenario: in a batch of three messages where the handler of the second fails, only
the first message is acknowledged. -/
theorem processMessages_ack_iff_witness :
    (batchSecondFails.map XMessage.ID).Nodup ∧
    resultAt demoJson demoService batchSecondFails [] 1 = some (some ⟨0, "remove failed"⟩) ∧
    ackedIDs (processMessages demoJson demoService batchSecondFails []).2 = ["1-0"] ∧
    ("3-0" ∈ ackedIDs (processMessages demoJson demoService batchSecondFails []).2 ↔
      ∀ j, j ≤ 2 → resultAt demoJson demoService batchSecondFails [] j = some none) :=
  ⟨by decide, by decide, by decide,
    (processMessages_ack_iff demoJson demoService batchSecondFails [] (by decide) 2
      (by decide)).1⟩

/-! ## Dispatch and decoding -/

theorem thingRemove_eq : thingRemove = "thing.remove" := by decide
theorem thingDisconnect_eq : thingDisconnect = "thing.disconnect" := by decide
theorem channelUpdate_eq : channelUpdate = "channel.update" := by decide
theorem channelRemove_eq : channelRemove = "channel.remove" := by decide

/-- Whatever the payload and the JSON library, the decoded metadata is the empty map:
`json.Unmarshal` gets the map by value and always reports an error. -/
theorem decodeUpdateChannel_metadata (lib : JsonLib) (event : Values) :
    (decodeUpdateChannel lib event).metadata = some [] := by
  simp only [decodeUpdateChannel, jsonUnmarshal]
  split_ifs <;> simp_all

theorem dispatch_thingRemove {σ : Type} (lib : JsonLib) (svc : Service σ) (event : Values)
    (w : σ) (h : index event "operation" = Value.str "thing.remove") :
    dispatch lib svc event w =
      ⟨(svc.RemoveConfigHandler (read event "id" "") w).1,
       (svc.RemoveConfigHandler (read event "id" "") w).2,
       [Effect.handler (Call.RemoveConfigHandler (read event "id" ""))]⟩ := by
  simp [dispatch, h, thingRemove_eq, handleRemoveThing, decodeRemoveThing]

theorem dispatch_thingDisconnect {σ : Type} (lib : JsonLib) (svc : Service σ) (event : Values)
    (w : σ) (h : index event "operation" = Value.str "thing.disconnect") :
    dispatch lib svc event w =
      ⟨(svc.DisconnectThingHandler (read event "chan_id" "") (read event "thing_id" "") w).1,
       (svc.DisconnectThingHandler (read event "chan_id" "") (read event "thing_id" "") w).2,
       [Effect.handler
          (Call.DisconnectThingHandler (read event "chan_id" "") (read event "thing_id" ""))]⟩ := by
  simp [dispatch, h, thingRemove_eq, thingDisconnect_eq, handleDisconnectThing,
    decodeDisconnectThing]

theorem dispatch_channelUpdate {σ : Type} (lib : JsonLib) (svc : Service σ) (event : Values)
    (w : σ) (h : index event "operation" = Value.str "channel.update") :
    dispatch lib svc event w =
      ⟨(svc.UpdateChannelHandler
          ⟨read event "id" "", read event "name" "",
           (decodeUpdateChannel lib event).metadata⟩ w).1,
       (svc.UpdateChannelHandler
          ⟨read event "id" "", read event "name" "",
           (decodeUpdateChannel lib event).metadata⟩ w).2,
       [Effect.handler (Call.UpdateChannelHandler
          ⟨read event "id" "", read event "name" "",
           (decodeUpdateChannel lib event).metadata⟩)]⟩ := by
  simp [dispatch, h, thingRemove_eq, thingDisconnect_eq, channelUpdate_eq,
    handleUpdateChannel, decodeUpdateChannel]

theorem dispatch_channelRemove {σ : Type} (lib : JsonLib) (svc : Service σ) (event : Values)
    (w : σ) (h : index event "operation" = Value.str "channel.remove") :
    dispatch lib svc event w =
      ⟨(svc.RemoveChannelHandler (read event "id" "") w).1,
       (svc.RemoveChannelHandler (read event "id" "") w).2,
       [Effect.handler (Call.RemoveChannelHandler (read event "id" ""))]⟩ := by
  simp [dispatch, h, thingRemove_eq, thingDisconnect_eq, channelUpdate_eq, channelRemove_eq,
    handleRemoveChannel, decodeRemoveChannel]

/-- C5. For a message whose `operation` is one of the four known tags, the dispatch makes
exactly one handler call, the one of the tag, on the decoded fields, and its error and world
are those the handler returns: `thing.remove` calls `RemoveConfigHandler(id)`,
`thing.disconnect` calls `DisconnectThingHandler(chan_id, thing_id)`, `channel.update` calls
`UpdateChannelHandler(Channel{ID: id, Name: name, Metadata: metadata})` and `channel.remove`
calls `RemoveChannelHandler(id)`. -/
theorem dispatch_known_tag {σ : Type} (lib : JsonLib) (svc : Service σ) (event : Values)
    (w : σ) :
    (index event "operation" = Value.str "thing.remove" →
      dispatch lib svc event w =
        ⟨(svc.RemoveConfigHandler (read event "id" "") w).1,
         (svc.RemoveConfigHandler (read event "id" "") w).2,
         [Effect.handler (Call.RemoveConfigHandler (read event "id" ""))]⟩) ∧
    (index event "operation" = Value.str "thing.disconnect" →
      dispatch lib svc event w =
        ⟨(svc.DisconnectThingHandler (read event "chan_id" "") (read event "thing_id" "") w).1,
         (svc.DisconnectThingHandler (read event "chan_id" "") (read event "thing_id" "") w).2,
         [Effect.handler
            (Call.DisconnectThingHandler (read event "chan_id" "") (read event "thing_id" ""))]⟩) ∧
    (index event "operation" = Value.str "channel.update" →
      dispatch lib svc event w =
        ⟨(svc.UpdateChannelHandler
            ⟨read event "id" "", read event "name" "",
             (decodeUpdateChannel lib event).metadata⟩ w).1,
         (svc.UpdateChannelHandler
            ⟨read event "id" "", read event "name" "",
             (decodeUpdateChannel lib event).metadata⟩ w).2,
         [Effect.handler (Call.UpdateChannelHandler
            ⟨read event "id" "", read event "name" "",
             (decodeUpdateChannel lib event).metadata⟩)]⟩) ∧
    (index event "operation" = Value.str "channel.remove" →
      dispatch lib svc event w =
        ⟨(svc.RemoveChannelHandler (read event "id" "") w).1,
         (svc.RemoveChannelHandler (read event "id" "") w).2,
         [Effect.handler (Call.RemoveChannelHandler (read event "id" ""))]⟩) :=
  ⟨dispatch_thingRemove lib svc event w, dispatch_thingDisconnect lib svc event w,
   dispatch_channelUpdate lib svc event w, dispatch_channelRemove lib svc event w⟩

/-- C5, at the four kinds of message: each reaches its own handler of `demoService`. -/
theorem dispatch_known_tag_witness :
    (dispatch demoJson demoService
        [("operation", .str "thing.remove"), ("id", .str "t1")] []).world =
      [Call.RemoveConfigHandler "t1"] ∧
    (dispatch demoJson demoService
        [("operation", .str "thing.disconnect"), ("chan_id", .str "c"),
         ("thing_id", .str "t")] []).world =
      [Call.DisconnectThingHandler "c" "t"] ∧
    (dispatch demoJson demoService
        [("operation", .str "channel.update"), ("id", .str "c1"), ("name", .str "n")] []).world =
      [Call.UpdateChannelHandler ⟨"c1", "n", some []⟩] ∧
    (dispatch demoJson demoService
        [("operation", .str "channel.remove"), ("id", .str "bad")] []).err =
      some ⟨0, "remove failed"⟩ :=
  ⟨by rw [(dispatch_known_tag demoJson demoService _ []).1 (by decide)]; decide,
   by rw [(dispatch_known_tag demoJson demoService _ []).2.1 (by decide)]; decide,
   by rw [(dispatch_known_tag demoJson demoService _ []).2.2.1 (by decide)]; decide,
   by rw [(dispatch_known_tag demoJson demoService _ []).2.2.2 (by decide)]; decide⟩

/-- C6. For a message whose `operation` is none of the four known tags (a missing or
non-string `operation` included), the dispatch calls no handler and returns no error, the
message is acknowledged, and the loop goes on with the rest of the batch. -/
theorem unknown_operation_acknowledged {σ : Type} (lib : JsonLib) (svc : Service σ)
    (msg : XMessage) (rest : List XMessage) (w : σ)
    (h1 : index msg.Values "operation" ≠ Value.str "thing.remove")
    (h2 : index msg.Values "operation" ≠ Value.str "thing.disconnect")
    (h3 : index msg.Values "operation" ≠ Value.str "channel.update")
    (h4 : index msg.Values "operation" ≠ Value.str "channel.remove") :
    dispatch lib svc msg.Values w = ⟨none, w, []⟩ ∧
    processMessages lib svc (msg :: rest) w =
      ((processMessages lib svc rest w).1,
       Effect.XAck "mainflux.things" "mainflux.bootstrap" msg.ID ::
         (processMessages lib svc rest w).2) := by
  have hd : dispatch lib svc msg.Values w = ⟨none, w, []⟩ := by
    unfold dispatch
    split
    · rename_i op hop
      rw [hop] at h1 h2 h3 h4
      rw [thingRemove_eq, thingDisconnect_eq, channelUpdate_eq, channelRemove_eq]
      have e1 : op ≠ "thing.remove" := fun h => h1 (by rw [h])
      have e2 : op ≠ "thing.disconnect" := fun h => h2 (by rw [h])
      have e3 : op ≠ "channel.update" := fun h => h3 (by rw [h])
      have e4 : op ≠ "channel.remove" := fun h => h4 (by rw [h])
      simp [e1, e2, e3, e4]
    · rfl
  refine ⟨hd, ?_⟩
  rw [processMessages_cons_ok lib svc msg rest w (by rw [hd])]
  rw [hd]
  rfl

/-- C6, on a batch with an unknown tag, a missing tag and a numeric tag before a known one:
all four messages are acknowledged and only the last one reaches a handler. -/
theorem unknown_operation_acknowledged_witness :
    processMessages demoJson demoService
        [⟨"1-0", [("operation", .str "thing.create"), ("id", .str "t1")]⟩,
         ⟨"2-0", [("id", .str "t2")]⟩,
         ⟨"3-0", [("operation", .num 7)]⟩,
         ⟨"4-0", [("operation", .str "thing.remove"), ("id", .str "t4")]⟩] [] =
      ([Call.RemoveConfigHandler "t4"],
       [Effect.XAck "mainflux.things" "mainflux.bootstrap" "1-0",
        Effect.XAck "mainflux.things" "mainflux.bootstrap" "2-0",
        Effect.XAck "mainflux.things" "mainflux.bootstrap" "3-0",
        Effect.handler (Call.RemoveConfigHandler "t4"),
        Effect.XAck "mainflux.things" "mainflux.bootstrap" "4-0"]) := by
  rw [(unknown_operation_acknowledged demoJson demoService _ _ []
        (by decide) (by decide) (by decide) (by decide)).2,
      (unknown_operation_acknowledged demoJson demoService _ _ []
        (by decide) (by decide) (by decide) (by decide)).2,
      (unknown_operation_acknowledged demoJson demoService _ _ []
        (by decide) (by decide) (by decide) (by decide)).2]
  decide

/-- Handed a pointer to the map, `json.Unmarshal` would store the encoded mapping. -/
theorem jsonUnmarshal_pointer_scenario :
    jsonUnmarshal demoJson "\x7b\"k\":1\x7d" (Dest.mapPointer none) =
      (none, some [("k", Value.num 1)]) := by decide

/-- C7, evaluated on the scenario of the specification: whatever the JSON library makes of
the text of the `metadata` field, `UpdateChannelHandler` receives the empty mapping and not
the mapping with `k` set to 1. The two handlers are called in order and both messages are
acknowledged. -/
theorem scenario_metadata_is_dropped (lib : JsonLib) :
    processMessages lib demoService batchScenario [] =
      ([Call.UpdateChannelHandler ⟨"c1", "n", some []⟩, Call.RemoveConfigHandler "t1"],
       [Effect.handler (Call.RemoveConfigHandler "t1"),
        Effect.XAck "mainflux.things" "mainflux.bootstrap" "1-0",
        Effect.handler (Call.UpdateChannelHandler ⟨"c1", "n", some []⟩),
        Effect.XAck "mainflux.things" "mainflux.bootstrap" "2-0"]) ∧
    demoJson.object "\x7b\"k\":1\x7d" = some [("k", Value.num 1)] ∧
    Call.UpdateChannelHandler ⟨"c1", "n", some []⟩ ≠
      Call.UpdateChannelHandler ⟨"c1", "n", some [("k", Value.num 1)]⟩ := by
  refine ⟨?_, by decide, by decide⟩
  have hm := decodeUpdateChannel_metadata lib
    [("operation", .str "channel.update"), ("id", .str "c1"), ("name", .str "n"),
     ("metadata", .str "\x7b\"k\":1\x7d")]
  have h1 : dispatch lib demoService
      [("operation", .str "thing.remove"), ("id", .str "t1")] [] =
      ⟨none, [Call.RemoveConfigHandler "t1"], [Effect.handler (Call.RemoveConfigHandler "t1")]⟩ := by
    rw [dispatch_thingRemove lib demoService _ [] (by decide)]
    rfl
  have h2 : dispatch lib demoService
      [("operation", .str "channel.update"), ("id", .str "c1"), ("name", .str "n"),
       ("metadata", .str "\x7b\"k\":1\x7d")] [Call.RemoveConfigHandler "t1"] =
      ⟨none, [Call.UpdateChannelHandler ⟨"c1", "n", some []⟩, Call.RemoveConfigHandler "t1"],
       [Effect.handler (Call.UpdateChannelHandler ⟨"c1", "n", some []⟩)]⟩ := by
    rw [dispatch_channelUpdate lib demoService _ _ (by decide), hm]
    rfl
  simp only [batchScenario, processMessages, h1, h2]
  decide

/-- C8. For a message whose `metadata` field is a string that is not well-formed JSON,
`decodeUpdateChannel` yields an event all the same, with `id` and `name` read as usual and
the empty, non-nil mapping as metadata; when the message is a `channel.update`, the handler
`UpdateChannelHandler` is called with exactly that channel. -/
theorem decodeUpdateChannel_malformed {σ : Type} (lib : JsonLib) (svc : Service σ)
    (event : Values) (w : σ) (strmeta : String)
    (hm : index event "metadata" = Value.str strmeta)
    (hbad : lib.checkValid strmeta = false) :
    decodeUpdateChannel lib event = ⟨read event "id" "", read event "name" "", some []⟩ ∧
    (index event "operation" = Value.str "channel.update" →
      dispatch lib svc event w =
        ⟨(svc.UpdateChannelHandler ⟨read event "id" "", read event "name" "", some []⟩ w).1,
         (svc.UpdateChannelHandler ⟨read event "id" "", read event "name" "", some []⟩ w).2,
         [Effect.handler
            (Call.UpdateChannelHandler ⟨read event "id" "", read event "name" "", some []⟩)]⟩) := by
  have hdec : decodeUpdateChannel lib event =
      ⟨read event "id" "", read event "name" "", some []⟩ := by
    have hr : read event "metadata" "\x7b\x7d" = strmeta := by simp [read, hm]
    simp [decodeUpdateChannel, jsonUnmarshal, hr, hbad]
  refine ⟨hdec, ?_⟩
  intro hop
  rw [dispatch_channelUpdate lib svc event w hop, hdec]

/-- C8, on a `channel.update` message whose metadata is the text `not json`. -/
theorem decodeUpdateChannel_malformed_witness :
    demoJson.checkValid "not json" = false ∧
    decodeUpdateChannel demoJson
        [("operation", .str "channel.update"), ("id", .str "c1"), ("name", .str "n"),
         ("metadata", .str "not json")] =
      ⟨"c1", "n", some []⟩ :=
  ⟨by decide,
   (decodeUpdateChannel_malformed demoJson demoService
      [("operation", .str "channel.update"), ("id", .str "c1"), ("name", .str "n"),
       ("metadata", .str "not json")] [] "not json" (by decide) (by decide)).1⟩

theorem read_followsPayload (event : Values) (key : String) :
    FollowsPayload event key (read event key "") := by
  refine ⟨?_, ?_, ?_⟩
  · intro s h
    simp [read, index, h]
  · intro h
    simp [read, index, h]
  · intro v h hv
    cases v with
    | str s => exact absurd rfl (hv s)
    | nil => simp [read, index, h]
    | num n => simp [read, index, h]
    | bool b => simp [read, index, h]
    | other r => simp [read, index, h]

/-- C9. For each of the four decoders and every payload, each string field of the decoded
event (`id`; `chan_id` and `thing_id`; `id` and `name`) is the payload value under its key
when that value is a string, and the empty string when the key is missing or bound to a
value that is not a string. -/
theorem decoded_fields_follow_payload (lib : JsonLib) (event : Values) :
    FollowsPayload event "id" (decodeRemoveThing event).id ∧
    FollowsPayload event "id" (decodeRemoveChannel event).id ∧
    FollowsPayload event "chan_id" (decodeDisconnectThing event).channelID ∧
    FollowsPayload event "thing_id" (decodeDisconnectThing event).thingID ∧
    FollowsPayload event "id" (decodeUpdateChannel lib event).id ∧
    FollowsPayload event "name" (decodeUpdateChannel lib event).name :=
  ⟨read_followsPayload event "id", read_followsPayload event "id",
   read_followsPayload event "chan_id", read_followsPayload event "thing_id",
   read_followsPayload event "id", read_followsPayload event "name"⟩

/-- C9, on a payload with a string `id`, a numeric `name` and no `thing_id`. -/
theorem decoded_fields_follow_payload_witness :
    (decodeRemoveThing [("id", .str "t1"), ("name", .num 3)]).id = "t1" ∧
    (decodeUpdateChannel demoJson [("id", .str "t1"), ("name", .num 3)]).name = "" ∧
    (decodeDisconnectThing [("id", .str "t1"), ("name", .num 3)]).thingID = "" :=
  ⟨(decoded_fields_follow_payload demoJson [("id", .str "t1"), ("name", .num 3)]).1.1
      "t1" (by decide),
   (decoded_fields_follow_payload demoJson [("id", .str "t1"), ("name", .num 3)]).2.2.2.2.2.2.2
      (.num 3) (by decide) (by intro s h; cases h),
   (decoded_fields_follow_payload demoJson [("id", .str "t1"), ("name", .num 3)]).2.2.2.1.2.1
      (by decide)⟩

/-! ## `Subscribe` -/

theorem readerStep_status {σ : Type} (es : eventStore) (s : LoopState σ) (r : ReadResult) :
    (readerStep es s r).status = s.status := by
  unfold readerStep
  split
  · rfl
  · split_ifs <;> rfl

theorem readerStep_trace_grows {σ : Type} (es : eventStore) (s : LoopState σ)
    (r : ReadResult) : s.trace <+: (readerStep es s r).trace := by
  unfold readerStep
  split
  · exact List.prefix_refl _
  · split_ifs
    · exact List.prefix_append _ _
    · simp only [List.append_assoc]
      exact List.prefix_append _ _

/-- No step of the loop makes `Subscribe` return a non-nil error. -/
theorem step_status_not_error {σ : Type} (lib : JsonLib) (svc : Service σ) (es : eventStore)
    (s : LoopState σ) (e : Sched) (h : ∀ err, s.status ≠ Status.returned (some err)) :
    ∀ err, (step lib svc es s e).status ≠ Status.returned (some err) := by
  intro err
  cases e with
  | read r =>
    simp only [step, readerStep_status]
    exact h err
  | recvShutdown tok =>
    simp only [step]
    split
    · split_ifs <;> simp_all
    · exact h err
  | ackTaken =>
    simp only [step]
    split
    · simp
    · exact h err
  | recvStreams =>
    simp only [step]
    split
    · simp
    · simp_all
    · exact h err

/-- A step of the loop only appends to the trace. -/
theorem step_trace_grows {σ : Type} (lib : JsonLib) (svc : Service σ) (es : eventStore)
    (s : LoopState σ) (e : Sched) : s.trace <+: (step lib svc es s e).trace := by
  cases e with
  | read r => exact readerStep_trace_grows es s r
  | recvShutdown tok =>
    simp only [step]
    split
    · split_ifs
      · exact List.prefix_append _ _
      · exact List.prefix_append _ _
    · exact List.prefix_refl _
  | ackTaken =>
    simp only [step]
    split
    · exact List.prefix_append _ _
    · exact List.prefix_refl _
  | recvStreams =>
    simp only [step]
    split
    · exact List.prefix_refl _
    · exact List.prefix_append _ _
    · exact List.prefix_refl _

theorem loop_status_not_error {σ : Type} (lib : JsonLib) (svc : Service σ) (es : eventStore)
    (sched : List Sched) :
    ∀ (s : LoopState σ), (∀ err, s.status ≠ Status.returned (some err)) →
      ∀ err, (sched.foldl (step lib svc es) s).status ≠ Status.returned (some err) := by
  induction sched with
  | nil => intro s h; exact h
  | cons e rest ih =>
    intro s h
    exact ih _ (step_status_not_error lib svc es s e h)

theorem loop_trace_grows {σ : Type} (lib : JsonLib) (svc : Service σ) (es : eventStore)
    (sched : List Sched) :
    ∀ (s : LoopState σ), s.trace <+: (sched.foldl (step lib svc es) s).trace := by
  induction sched with
  | nil => intro s; exact List.prefix_refl _
  | cons e rest ih =>
    intro s
    exact List.IsPrefix.trans (step_trace_grows lib svc es s e) (ih _)

/-- Once in the loop, the first read of the schedule is carried out. -/
theorem loop_first_read {σ : Type} (lib : JsonLib) (svc : Service σ) (es : eventStore)
    (r : ReadResult) (rest : List Sched) (w : σ) :
    Effect.XReadGroup group es.consumer [stream, ">"] 100 ∈
      ((Sched.read r :: rest).foldl (step lib svc es) (loopStart w)).trace := by
  have hp := loop_trace_grows lib svc es rest (step lib svc es (loopStart w) (.read r))
  apply List.IsPrefix.subset hp
  simp only [step, readerStep, loopStart]
  split_ifs <;> simp

/-- C4. `Subscribe` returns a non-nil error if and only if the creation of the consumer group
answers an error whose message is not `BUSYGROUP Consumer Group name already exists`. In that
case the error returned is the creation error and nothing but the group creation has been
done: no read, no handler call. When the creation succeeds or answers that message,
`Subscribe` is in its loop, where the reads of the schedule are carried out. -/
theorem Subscribe_abort_iff {σ : Type} (lib : JsonLib) (svc : Service σ) (es : eventStore)
    (subject : String) (createErr : Option GoError) (sched : List Sched) (w : σ) :
    ((∃ err, (Subscribe lib svc es subject createErr sched w).status =
          Status.returned (some err)) ↔
      ∃ err, createErr = some err ∧
        err.msg ≠ "BUSYGROUP Consumer Group name already exists") ∧
    (∀ err, createErr = some err →
      err.msg ≠ "BUSYGROUP Consumer Group name already exists" →
      (Subscribe lib svc es subject createErr sched w).status = Status.returned (some err) ∧
      (Subscribe lib svc es subject createErr sched w).world = w ∧
      (Subscribe lib svc es subject createErr sched w).trace =
        [Effect.XGroupCreateMkStream "mainflux.things" "mainflux.bootstrap" "$"]) ∧
    ((createErr = none ∨ ∃ err, createErr = some err ∧
        err.msg = "BUSYGROUP Consumer Group name already exists") →
      Subscribe lib svc es subject createErr sched w =
        sched.foldl (step lib svc es) (loopStart w) ∧
      ∀ r rest, sched = Sched.read r :: rest →
        Effect.XReadGroup "mainflux.bootstrap" es.consumer ["mainflux.things", ">"] 100 ∈
          (Subscribe lib svc es subject createErr sched w).trace) := by
  have hex : «exists» = "BUSYGROUP Consumer Group name already exists" := rfl
  have hstart : ∀ err, (loopStart w).status ≠ Status.returned (some err) := by
    intro err h
    simp [loopStart] at h
  have hloop : (createErr = none ∨ ∃ err, createErr = some err ∧
        err.msg = "BUSYGROUP Consumer Group name already exists") →
      Subscribe lib svc es subject createErr sched w =
        sched.foldl (step lib svc es) (loopStart w) := by
    rintro (h | ⟨err, h, hmsg⟩)
    · simp [Subscribe, h]
    · simp [Subscribe, h, hex, hmsg]
  have habort : ∀ err, createErr = some err →
      err.msg ≠ "BUSYGROUP Consumer Group name already exists" →
      Subscribe lib svc es subject createErr sched w =
        ⟨Status.returned (some err), none, w,
          [Effect.XGroupCreateMkStream stream group "$"]⟩ := by
    intro err h hmsg
    simp [Subscribe, h, hex, hmsg]
  refine ⟨⟨?_, ?_⟩, ?_, ?_⟩
  · rintro ⟨err, hret⟩
    cases hc : createErr with
    | none =>
      rw [hloop (Or.inl hc)] at hret
      exact absurd hret (loop_status_not_error lib svc es sched _ hstart err)
    | some cerr =>
      by_cases hmsg : cerr.msg = "BUSYGROUP Consumer Group name already exists"
      · rw [hloop (Or.inr ⟨cerr, hc, hmsg⟩)] at hret
        exact absurd hret (loop_status_not_error lib svc es sched _ hstart err)
      · exact ⟨cerr, rfl, hmsg⟩
  · rintro ⟨err, hc, hmsg⟩
    exact ⟨err, by rw [habort err hc hmsg]⟩
  · intro err hc hmsg
    rw [habort err hc hmsg]
    exact ⟨rfl, rfl, rfl⟩
  · intro h
    refine ⟨hloop h, ?_⟩
    intro r rest hs
    rw [hloop h, hs]
    exact loop_first_read lib svc es r rest w

/-- C4, on two runs: a creation refused for another reason makes `Subscribe` return that
error without reading; a creation answering that the group exists lets the read happen. -/
theorem Subscribe_abort_iff_witness :
    (Subscribe demoJson demoService ⟨"c"⟩ "mainflux.things"
        (some ⟨0, "connection refused"⟩) [Sched.read ⟨[], none⟩] []).status =
      Status.returned (some ⟨0, "connection refused"⟩) ∧
    Effect.XReadGroup "mainflux.bootstrap" "c" ["mainflux.things", ">"] 100 ∈
      (Subscribe demoJson demoService ⟨"c"⟩ "mainflux.things"
        (some ⟨0, "BUSYGROUP Consumer Group name already exists"⟩)
        [Sched.read ⟨[], none⟩] []).trace :=
  ⟨((Subscribe_abort_iff demoJson demoService ⟨"c"⟩ "mainflux.things"
        (some ⟨0, "connection refused"⟩) [Sched.read ⟨[], none⟩] []).2.1
      ⟨0, "connection refused"⟩ rfl (by decide)).1,
   ((Subscribe_abort_iff demoJson demoService ⟨"c"⟩ "mainflux.things"
        (some ⟨0, "BUSYGROUP Consumer Group name already exists"⟩)
        [Sched.read ⟨[], none⟩] []).2.2 (Or.inr ⟨_, rfl, rfl⟩)).2 ⟨[], none⟩ [] rfl⟩

/-! ## `Stop` -/

/-- Without a loop at its receive, no step moves `Stop` past the send of `req`. -/
theorem sysStep_blocked {σ : Type} (lib : JsonLib) (svc : Service σ) (es : eventStore)
    (s : System σ) (e : SysEvent) (hl : s.loop = none) (hp : s.stop.pc = StopPc.sendingReq) :
    (sysStep lib svc es s e).loop = none ∧
      (sysStep lib svc es s e).stop.pc = StopPc.sendingReq := by
  cases e with
  | read r => simp [sysStep, hl, hp]
  | recvStreams => simp [sysStep, hl, hp]
  | timerFires => simp [sysStep, hl, hp]
  | handoffReq => simp [sysStep, hl, hp]
  | handoffAck => simp [sysStep, hl, hp]
  | recvTimer => simp [sysStep, hl, hp, stopRecvTimer]

theorem run_blocked {σ : Type} (lib : JsonLib) (svc : Service σ) (es : eventStore)
    (sched : List SysEvent) :
    ∀ (s : System σ), s.loop = none → s.stop.pc = StopPc.sendingReq →
      (sched.foldl (sysStep lib svc es) s).stop.pc = StopPc.sendingReq := by
  induction sched with
  | nil => intro s _ hp; exact hp
  | cons e rest ih =>
    intro s hl hp
    obtain ⟨h1, h2⟩ := sysStep_blocked lib svc es s e hl hp
    exact ih _ h1 h2

/-- C10, evaluated where no `Subscribe` loop is receiving on `es.shutdownC`: whatever happens
afterwards, the expiry of the timer included, `Stop` stays blocked in the send of `req` and
never returns, neither nil nor the timeout error. -/
theorem Stop_without_loop_never_returns {σ : Type} (lib : JsonLib) (svc : Service σ)
    (es : eventStore) (sched : List SysEvent) :
    (Stop lib svc es (none : Option (LoopState σ)) sched).stop.pc = StopPc.sendingReq ∧
    (Stop lib svc es (none : Option (LoopState σ))
        (sched ++ [SysEvent.timerFires, SysEvent.recvTimer])).stop.pc ≠
      StopPc.returned (some timeoutError) := by
  constructor
  · exact run_blocked lib svc es sched _ rfl rfl
  · rw [Stop, run_blocked lib svc es _ _ rfl rfl]
    simp

/-- With a loop in its `select`, the handshake completes and `Stop` returns nil, while
`Subscribe` returns nil after sending `ack`. -/
theorem Stop_with_loop_returns_nil :
    (Stop demoJson demoService ⟨"c"⟩ (some (loopStart []))
        [SysEvent.handoffReq, SysEvent.handoffAck]).stop.pc = StopPc.returned none ∧
    ((Stop demoJson demoService ⟨"c"⟩ (some (loopStart []))
        [SysEvent.handoffReq, SysEvent.handoffAck]).loop.map (fun l => l.status)) =
      some (Status.returned none) ∧
    (Stop demoJson demoService ⟨"c"⟩ (some (loopStart []))
        [SysEvent.handoffReq, SysEvent.timerFires, SysEvent.recvTimer,
         SysEvent.handoffAck]).stop.pc = StopPc.returned (some timeoutError) := by
  refine ⟨by decide, by decide, by decide⟩

/-! ## The loop of `Subscribe` -/

/-- The reader goroutine never offers an empty list of streams. -/
theorem step_pending_nonempty {σ : Type} (lib : JsonLib) (svc : Service σ) (es : eventStore)
    (s : LoopState σ) (e : Sched) (h : s.pending ≠ some []) :
    (step lib svc es s e).pending ≠ some [] := by
  cases e with
  | read r =>
    simp only [step, readerStep]
    split
    · exact h
    · split_ifs with hc
      · exact h
      · intro hp
        simp only [Option.some.injEq] at hp
        simp [hp] at hc
  | recvShutdown tok =>
    simp only [step]
    split
    · split_ifs <;> exact h
    · exact h
  | ackTaken =>
    simp only [step]
    split <;> exact h
  | recvStreams =>
    simp only [step]
    split
    · simp
    · simp
    · exact h

/-- In its `select`, the loop stays there on every step but the receipt of `req`. -/
theorem step_keeps_selecting {σ : Type} (lib : JsonLib) (svc : Service σ) (es : eventStore)
    (s : LoopState σ) (e : Sched) (hs : s.status = Status.selecting)
    (hp : s.pending ≠ some []) (he : e ≠ Sched.recvShutdown req) :
    (step lib svc es s e).status = Status.selecting := by
  cases e with
  | read r => rw [step, readerStep_status, hs]
  | recvShutdown tok =>
    have htok : tok ≠ req := fun h => he (by rw [h])
    simp [step, hs, htok]
  | ackTaken => simp [step, hs]
  | recvStreams =>
    simp only [step]
    split
    · rename_i hpend
      exact absurd hpend hp
    · exact hs
    · exact hs

/-- Blocked in the send of `ack`, the loop stays there on every step but `ackTaken`. -/
theorem step_keeps_sendingAck {σ : Type} (lib : JsonLib) (svc : Service σ) (es : eventStore)
    (s : LoopState σ) (e : Sched) (hs : s.status = Status.sendingAck)
    (he : e ≠ Sched.ackTaken) :
    (step lib svc es s e).status = Status.sendingAck := by
  cases e with
  | read r => rw [step, readerStep_status, hs]
  | recvShutdown tok => simp [step, hs]
  | ackTaken => exact absurd rfl he
  | recvStreams => simp [step, hs]

theorem loop_keeps_selecting {σ : Type} (lib : JsonLib) (svc : Service σ) (es : eventStore)
    (sched : List Sched) :
    ∀ (s : LoopState σ), s.status = Status.selecting → s.pending ≠ some [] →
      (∀ e ∈ sched, e ≠ Sched.recvShutdown req) →
      (sched.foldl (step lib svc es) s).status = Status.selecting := by
  induction sched with
  | nil => intro s hs _ _; exact hs
  | cons e rest ih =>
    intro s hs hp hall
    have he : e ≠ Sched.recvShutdown req := hall e (List.mem_cons_self _ _)
    exact ih _ (step_keeps_selecting lib svc es s e hs hp he)
      (step_pending_nonempty lib svc es s e hp)
      (fun e' he' => hall e' (List.mem_cons_of_mem _ he'))

/-- The loop never indexes an empty list of streams. -/
theorem loop_never_panics {σ : Type} (lib : JsonLib) (svc : Service σ) (es : eventStore)
    (sched : List Sched) :
    ∀ (s : LoopState σ), s.status ≠ Status.panicked → s.pending ≠ some [] →
      (sched.foldl (step lib svc es) s).status ≠ Status.panicked := by
  induction sched with
  | nil => intro s hs _; exact hs
  | cons e rest ih =>
    intro s hs hp
    refine ih _ ?_ (step_pending_nonempty lib svc es s e hp)
    cases e with
    | read r => rw [step, readerStep_status]; exact hs
    | recvShutdown tok =>
      simp only [step]
      split
      · split_ifs <;> simp_all
      · exact hs
    | ackTaken =>
      simp only [step]
      split
      · simp
      · exact hs
    | recvStreams =>
      simp only [step]
      split
      · rename_i hpend
        exact absurd hpend hp
      · simp_all
      · exact hs

/-- From the send of `ack`, a nil return needs the send to be taken, and the send is in the
trace from then on. -/
theorem loop_returns_after_ack {σ : Type} (lib : JsonLib) (svc : Service σ) (es : eventStore)
    (sched : List Sched) :
    ∀ (s : LoopState σ), s.status = Status.sendingAck →
      (sched.foldl (step lib svc es) s).status = Status.returned none →
      (∃ s2 s3, sched = s2 ++ Sched.ackTaken :: s3) ∧
      ∃ t2 t3, (sched.foldl (step lib svc es) s).trace =
        s.trace ++ (t2 ++ Effect.sendShutdownC ack :: t3) := by
  induction sched with
  | nil =>
    intro s hs hret
    simp only [List.foldl_nil] at hret
    rw [hs] at hret
    cases hret
  | cons e rest ih =>
    intro s hs hret
    by_cases he : e = Sched.ackTaken
    · subst he
      refine ⟨⟨[], rest, rfl⟩, ?_⟩
      obtain ⟨t, ht⟩ := loop_trace_grows lib svc es rest (step lib svc es s .ackTaken)
      refine ⟨[], t, ?_⟩
      rw [List.foldl_cons, ← ht]
      simp [step, hs]
    · have hs' := step_keeps_sendingAck lib svc es s e hs he
      obtain ⟨⟨s2, s3, h1⟩, t2, t3, h2⟩ := ih _ hs' hret
      obtain ⟨t, ht⟩ := step_trace_grows lib svc es s e
      refine ⟨⟨e :: s2, s3, by rw [h1]; rfl⟩, t ++ t2, t3, ?_⟩
      rw [List.foldl_cons, h2, ← ht]
      simp

/-- From the `select`, a nil return needs `req` to be received and then the send of `ack` to
be taken; the trace shows the shutdown line and, later, the send. -/
theorem loop_returns_after_req {σ : Type} (lib : JsonLib) (svc : Service σ) (es : eventStore)
    (sched : List Sched) :
    ∀ (s : LoopState σ), s.status = Status.selecting → s.pending ≠ some [] →
      (sched.foldl (step lib svc es) s).status = Status.returned none →
      (∃ s1 s2 s3, sched = s1 ++ Sched.recvShutdown req :: (s2 ++ Sched.ackTaken :: s3)) ∧
      ∃ t1 t2 t3, (sched.foldl (step lib svc es) s).trace =
        t1 ++ Effect.log .info "Event source listener received shutdown signal" ::
          (t2 ++ Effect.sendShutdownC ack :: t3) := by
  induction sched with
  | nil =>
    intro s hs _ hret
    simp only [List.foldl_nil] at hret
    rw [hs] at hret
    cases hret
  | cons e rest ih =>
    intro s hs hp hret
    by_cases he : e = Sched.recvShutdown req
    · subst he
      have hst : (step lib svc es s (.recvShutdown req)).status = Status.sendingAck := by
        simp [step, hs]
      have htr : (step lib svc es s (.recvShutdown req)).trace =
          s.trace ++ [Effect.log .info "Event source listener received shutdown signal"] := by
        simp [step, hs]
      obtain ⟨⟨s2, s3, h1⟩, t2, t3, h2⟩ := loop_returns_after_ack lib svc es rest _ hst hret
      refine ⟨⟨[], s2, s3, by rw [h1]; rfl⟩, s.trace, t2, t3, ?_⟩
      rw [List.foldl_cons, h2, htr]
      simp
    · have hs' := step_keeps_selecting lib svc es s e hs hp he
      have hp' := step_pending_nonempty lib svc es s e hp
      obtain ⟨⟨s1, s2, s3, h1⟩, t1, t2, t3, h2⟩ := ih _ hs' hp' hret
      exact ⟨⟨e :: s1, s2, s3, by rw [h1]; rfl⟩, t1, t2, t3, by rw [List.foldl_cons, h2]⟩

theorem Subscribe_in_loop {σ : Type} (lib : JsonLib) (svc : Service σ) (es : eventStore)
    (subject : String) (createErr : Option GoError) (sched : List Sched) (w : σ)
    (h : createErr = none ∨ ∃ err, createErr = some err ∧ err.msg = «exists») :
    Subscribe lib svc es subject createErr sched w =
      sched.foldl (step lib svc es) (loopStart w) := by
  rcases h with h | ⟨err, h, hmsg⟩
  · simp [Subscribe, h]
  · simp [Subscribe, h, hmsg]

theorem Subscribe_aborted {σ : Type} (lib : JsonLib) (svc : Service σ) (es : eventStore)
    (subject : String) (createErr : Option GoError) (sched : List Sched) (w : σ)
    (err : GoError) (h : createErr = some err) (hmsg : err.msg ≠ «exists») :
    Subscribe lib svc es subject createErr sched w =
      ⟨Status.returned (some err), none, w,
        [Effect.XGroupCreateMkStream stream group "$"]⟩ := by
  simp [Subscribe, h, hmsg]

/-- Either the group creation aborts `Subscribe`, or `Subscribe` is in its loop. -/
theorem Subscribe_cases {σ : Type} (lib : JsonLib) (svc : Service σ) (es : eventStore)
    (subject : String) (createErr : Option GoError) (sched : List Sched) (w : σ) :
    (∃ err, createErr = some err ∧ err.msg ≠ «exists» ∧
      Subscribe lib svc es subject createErr sched w =
        ⟨Status.returned (some err), none, w,
          [Effect.XGroupCreateMkStream stream group "$"]⟩) ∨
    ((createErr = none ∨ ∃ err, createErr = some err ∧ err.msg = «exists») ∧
      Subscribe lib svc es subject createErr sched w =
        sched.foldl (step lib svc es) (loopStart w)) := by
  cases hc : createErr with
  | none => exact Or.inr ⟨Or.inl rfl, Subscribe_in_loop lib svc es subject _ sched w (Or.inl rfl)⟩
  | some cerr =>
    by_cases hmsg : cerr.msg = «exists»
    · exact Or.inr ⟨Or.inr ⟨cerr, rfl, hmsg⟩,
        Subscribe_in_loop lib svc es subject _ sched w (Or.inr ⟨cerr, rfl, hmsg⟩)⟩
    · exact Or.inl ⟨cerr, rfl, hmsg, Subscribe_aborted lib svc es subject _ sched w cerr rfl hmsg⟩

/-- C11. Over every answer of the group creation and every schedule of read results, handler
outcomes and shutdown tokens: a non-nil return of `Subscribe` is the error of the group
creation, made before the loop starts; a nil return comes after the token `req` was received
and the send of `ack` was taken, the trace showing both in that order; the loop never panics;
and as long as no `req` has been received the loop is still in its `select`, whatever the
reads answered, the handlers returned and the other tokens were. -/
theorem Subscribe_returns_only_on_shutdown {σ : Type} (lib : JsonLib) (svc : Service σ)
    (es : eventStore) (subject : String) (createErr : Option GoError) (sched : List Sched)
    (w : σ) :
    (∀ err, (Subscribe lib svc es subject createErr sched w).status =
        Status.returned (some err) →
      createErr = some err ∧ err.msg ≠ "BUSYGROUP Consumer Group name already exists" ∧
      (Subscribe lib svc es subject createErr sched w).trace =
        [Effect.XGroupCreateMkStream stream group "$"]) ∧
    ((Subscribe lib svc es subject createErr sched w).status = Status.returned none →
      (∃ s1 s2 s3, sched = s1 ++ Sched.recvShutdown 1 :: (s2 ++ Sched.ackTaken :: s3)) ∧
      ∃ t1 t2 t3, (Subscribe lib svc es subject createErr sched w).trace =
        t1 ++ Effect.log .info "Event source listener received shutdown signal" ::
          (t2 ++ Effect.sendShutdownC 2 :: t3)) ∧
    (Subscribe lib svc es subject createErr sched w).status ≠ Status.panicked ∧
    ((createErr = none ∨ ∃ err, createErr = some err ∧
        err.msg = "BUSYGROUP Consumer Group name already exists") →
      (∀ e ∈ sched, e ≠ Sched.recvShutdown 1) →
      (Subscribe lib svc es subject createErr sched w).status = Status.selecting) := by
  have hstart : ∀ err, (loopStart w).status ≠ Status.returned (some err) := by
    intro err h
    simp [loopStart] at h
  have hpend : (loopStart w).pending ≠ some [] := by simp [loopStart]
  rcases Subscribe_cases lib svc es subject createErr sched w with
    ⟨cerr, hc, hmsg, hrun⟩ | ⟨hc, hrun⟩
  · refine ⟨?_, ?_, ?_, ?_⟩
    · intro err herr
      rw [hrun] at herr
      simp only [Status.returned.injEq, Option.some.injEq] at herr
      subst herr
      exact ⟨hc, hmsg, by rw [hrun]⟩
    · intro hnil
      rw [hrun] at hnil
      simp at hnil
    · rw [hrun]
      simp
    · rintro (h | ⟨err, h, hm⟩)
      · rw [hc] at h
        cases h
      · rw [hc] at h
        cases h
        exact absurd hm hmsg
  · refine ⟨?_, ?_, ?_, ?_⟩
    · intro err herr
      rw [hrun] at herr
      exact absurd herr (loop_status_not_error lib svc es sched _ hstart err)
    · intro hnil
      rw [hrun] at hnil ⊢
      exact loop_returns_after_req lib svc es sched _ rfl hpend hnil
    · rw [hrun]
      exact loop_never_panics lib svc es sched _ (by simp [loopStart]) hpend
    · intro _ hall
      rw [hrun]
      exact loop_keeps_selecting lib svc es sched _ rfl hpend hall

/-- C11, on a schedule with a failed read, an empty read, a batch whose second handler fails
and an unexpected token: `Subscribe` is still in its `select`. -/
theorem Subscribe_returns_only_on_shutdown_witness :
    (∀ e ∈ schedTroubles, e ≠ Sched.recvShutdown 1) ∧
    (Subscribe demoJson demoService ⟨"c"⟩ "mainflux.things" none schedTroubles []).status =
      Status.selecting ∧
    ackedIDs (Subscribe demoJson demoService ⟨"c"⟩ "mainflux.things" none schedTroubles
      []).trace = ["1-0"] :=
  ⟨by decide,
   (Subscribe_returns_only_on_shutdown demoJson demoService ⟨"c"⟩ "mainflux.things" none
      schedTroubles []).2.2.2 (Or.inl rfl) (by decide),
   by decide⟩

/-- C12, evaluated on the topic `other.topic`: the group is created on, the entries are read
from and acknowledged on the stream `mainflux.things` of the group `mainflux.bootstrap`, not
on the stream named by the argument; the argument has no effect on any run. -/
theorem Subscribe_ignores_subject :
    targets (Subscribe demoJson demoService ⟨"c"⟩ "other.topic" none
        [Sched.read ⟨[⟨"other.topic", [⟨"1-0", [("operation", .str "thing.remove"),
          ("id", .str "t1")]⟩]⟩], none⟩, Sched.recvStreams] []).trace =
      [("mainflux.things", "mainflux.bootstrap"), ("mainflux.things", "mainflux.bootstrap"),
       ("mainflux.things", "mainflux.bootstrap")] ∧
    ("other.topic", "mainflux.bootstrap") ∉
      targets (Subscribe demoJson demoService ⟨"c"⟩ "other.topic" none
        [Sched.read ⟨[⟨"other.topic", [⟨"1-0", [("operation", .str "thing.remove"),
          ("id", .str "t1")]⟩]⟩], none⟩, Sched.recvStreams] []).trace ∧
    ∀ (subject : String) (createErr : Option GoError) (sched : List Sched) (w : List Call),
      Subscribe demoJson demoService ⟨"c"⟩ subject createErr sched w =
        Subscribe demoJson demoService ⟨"c"⟩ "mainflux.things" createErr sched w :=
  ⟨by decide, by decide, fun _ _ _ _ => rfl⟩

/-! ## Order of the effects of a batch -/

theorem handlerAt_zero {σ : Type} (lib : JsonLib) (svc : Service σ) (msg : XMessage)
    (rest : List XMessage) (w : σ) :
    handlerAt lib svc (msg :: rest) w 0 = (dispatch lib svc msg.Values w).trace := by
  simp [handlerAt, worldBefore]

theorem handlerAt_succ {σ : Type} (lib : JsonLib) (svc : Service σ) (msg : XMessage)
    (rest : List XMessage) (w : σ) (i : Nat) :
    handlerAt lib svc (msg :: rest) w (i + 1) =
      handlerAt lib svc rest (dispatch lib svc msg.Values w).world i := by
  simp [handlerAt, worldBefore]

theorem handlerAt_cases {σ : Type} (lib : JsonLib) (svc : Service σ) (msgs : List XMessage)
    (w : σ) (i : Nat) :
    handlerAt lib svc msgs w i = [] ∨ ∃ c, handlerAt lib svc msgs w i = [Effect.handler c] := by
  unfold handlerAt
  split
  · exact Or.inl rfl
  · exact dispatch_trace_cases lib svc _ _

theorem ackAt_zero (msg : XMessage) (rest : List XMessage) :
    ackAt (msg :: rest) 0 = [Effect.XAck stream group msg.ID] := by
  simp [ackAt]

theorem ackAt_succ (msg : XMessage) (rest : List XMessage) (i : Nat) :
    ackAt (msg :: rest) (i + 1) = ackAt rest i := by
  simp [ackAt]

theorem warnAt_succ {σ : Type} (lib : JsonLib) (svc : Service σ) (msg : XMessage)
    (rest : List XMessage) (w : σ) (i : Nat) :
    warnAt lib svc (msg :: rest) w (i + 1) =
      warnAt lib svc rest (dispatch lib svc msg.Values w).world i := by
  simp only [warnAt, resultAt_succ]

theorem flatMap_range_succ (f : Nat → List Effect) (k : Nat) :
    (List.range (k + 1)).flatMap f = f 0 ++ (List.range k).flatMap (fun i => f (i + 1)) := by
  rw [List.range_succ_eq_map, List.flatMap_cons, List.flatMap_map]

theorem flatMap_range_succ_calls (f : Nat → List Call) (k : Nat) :
    (List.range (k + 1)).flatMap f = f 0 ++ (List.range k).flatMap (fun i => f (i + 1)) := by
  rw [List.range_succ_eq_map, List.flatMap_cons, List.flatMap_map]

/-- The trace of a batch is made of the blocks of its messages, in delivery order, up to the
first message whose dispatch fails. -/
theorem processMessages_blocks {σ : Type} (lib : JsonLib) (svc : Service σ)
    (msgs : List XMessage) :
    ∀ (w : σ), ∃ k, k ≤ msgs.length ∧
      (∀ i, i < k → resultAt lib svc msgs w i = some none) ∧
      (k < msgs.length → ∃ err, resultAt lib svc msgs w k = some (some err)) ∧
      (processMessages lib svc msgs w).2 =
        (List.range k).flatMap (fun i => handlerAt lib svc msgs w i ++ ackAt msgs i) ++
          (handlerAt lib svc msgs w k ++ warnAt lib svc msgs w k) := by
  induction msgs with
  | nil =>
    intro w
    exact ⟨0, Nat.le_refl _, fun i hi => absurd hi (Nat.not_lt_zero i), fun h => absurd h (by simp),
      by simp [processMessages, handlerAt, warnAt, resultAt]⟩
  | cons msg rest ih =>
    intro w
    cases hr : (dispatch lib svc msg.Values w).err with
    | some err =>
      refine ⟨0, Nat.zero_le _, fun i hi => absurd hi (Nat.not_lt_zero i),
        fun _ => ⟨err, by rw [resultAt_zero, hr]⟩, ?_⟩
      rw [processMessages_cons_err lib svc msg rest w err hr]
      simp [handlerAt_zero, warnAt, resultAt_zero, hr]
    | none =>
      obtain ⟨k, hk, hok, hfail, htrace⟩ := ih (dispatch lib svc msg.Values w).world
      refine ⟨k + 1, Nat.succ_le_succ hk, ?_, ?_, ?_⟩
      · intro i hi
        cases i with
        | zero => rw [resultAt_zero, hr]
        | succ j =>
          rw [resultAt_succ]
          exact hok j (Nat.lt_of_succ_lt_succ hi)
      · intro hlt
        rw [resultAt_succ]
        exact hfail (Nat.lt_of_succ_lt_succ hlt)
      · rw [processMessages_cons_ok lib svc msg rest w hr, htrace, flatMap_range_succ]
        simp only [handlerAt_zero, handlerAt_succ, ackAt_zero, ackAt_succ, warnAt_succ,
          List.append_assoc]

theorem ackedIDs_handlerAt {σ : Type} (lib : JsonLib) (svc : Service σ) (msgs : List XMessage)
    (w : σ) (i : Nat) : ackedIDs (handlerAt lib svc msgs w i) = [] := by
  rcases handlerAt_cases lib svc msgs w i with h | ⟨c, h⟩ <;> rw [h] <;> rfl

theorem ackedIDs_warnAt {σ : Type} (lib : JsonLib) (svc : Service σ) (msgs : List XMessage)
    (w : σ) (i : Nat) : ackedIDs (warnAt lib svc msgs w i) = [] := by
  unfold warnAt
  split <;> rfl

theorem handlerCalls_warnAt {σ : Type} (lib : JsonLib) (svc : Service σ)
    (msgs : List XMessage) (w : σ) (i : Nat) : handlerCalls (warnAt lib svc msgs w i) = [] := by
  unfold warnAt
  split <;> rfl

theorem handlerCalls_ackAt (msgs : List XMessage) (i : Nat) :
    handlerCalls (ackAt msgs i) = [] := by
  unfold ackAt
  split <;> rfl

/-- The acknowledges of the first `k` blocks are the identifiers of the first `k`
messages. -/
theorem ackedIDs_blocks {σ : Type} (lib : JsonLib) (svc : Service σ) (msgs : List XMessage) :
    ∀ (w : σ) (k : Nat), k ≤ msgs.length →
      ackedIDs ((List.range k).flatMap
        (fun i => handlerAt lib svc msgs w i ++ ackAt msgs i)) =
        (msgs.take k).map XMessage.ID := by
  induction msgs with
  | nil =>
    intro w k hk
    have : k = 0 := by simpa using hk
    subst this
    rfl
  | cons msg rest ih =>
    intro w k hk
    cases k with
    | zero => rfl
    | succ j =>
      have hj : j ≤ rest.length := by simpa using hk
      rw [flatMap_range_succ]
      simp only [handlerAt_succ, ackAt_succ, ackedIDs_append, ackedIDs_handlerAt, ackAt_zero,
        ih _ j hj, List.take_succ_cons, List.map_cons, List.nil_append]
      rfl

/-- The handler calls of the first `k` blocks, block by block. -/
theorem handlerCalls_blocks {σ : Type} (lib : JsonLib) (svc : Service σ)
    (msgs : List XMessage) (w : σ) (k : Nat) :
    handlerCalls ((List.range k).flatMap
      (fun i => handlerAt lib svc msgs w i ++ ackAt msgs i)) =
      (List.range k).flatMap (fun i => handlerCalls (handlerAt lib svc msgs w i)) := by
  induction k with
  | zero => rfl
  | succ j ih =>
    rw [List.range_succ, List.flatMap_append, List.flatMap_append, handlerCalls_append, ih]
    simp [handlerCalls_append, handlerCalls_ackAt]

/-- C21. The trace of a batch is sequential in delivery order. There is a number `k` of
messages, all of whose dispatches return nil, the dispatch of message `k` failing when the
batch has one, such that the trace is, for each message before `k` in order, its handler
invocation (if its tag has one) followed by its acknowledge, and then the handler invocation
of message `k` followed by a warning. So the handler invocation of an acknowledged message
precedes its acknowledge, which precedes everything done for the next message; nothing is
done for a message after the first failing one; the acknowledged messages are the first `k`
of the batch and the handled ones are among its first `k + 1`. -/
theorem processMessages_sequential {σ : Type} (lib : JsonLib) (svc : Service σ)
    (msgs : List XMessage) (w : σ) :
    ∃ k, k ≤ msgs.length ∧
      (∀ i, i < k → resultAt lib svc msgs w i = some none) ∧
      (k < msgs.length → ∃ err, resultAt lib svc msgs w k = some (some err)) ∧
      (processMessages lib svc msgs w).2 =
        (List.range k).flatMap (fun i => handlerAt lib svc msgs w i ++ ackAt msgs i) ++
          (handlerAt lib svc msgs w k ++ warnAt lib svc msgs w k) ∧
      (∀ i, handlerAt lib svc msgs w i = [] ∨
        ∃ c, handlerAt lib svc msgs w i = [Effect.handler c]) ∧
      (∀ i, i < k → ∃ m, msgs[i]? = some m ∧
        ackAt msgs i = [Effect.XAck "mainflux.things" "mainflux.bootstrap" m.ID]) ∧
      ackedIDs (processMessages lib svc msgs w).2 = (msgs.take k).map XMessage.ID ∧
      handlerCalls (processMessages lib svc msgs w).2 =
        (List.range (k + 1)).flatMap (fun i => handlerCalls (handlerAt lib svc msgs w i)) := by
  obtain ⟨k, hk, hok, hfail, htrace⟩ := processMessages_blocks lib svc msgs w
  refine ⟨k, hk, hok, hfail, htrace, handlerAt_cases lib svc msgs w, ?_, ?_, ?_⟩
  · intro i hi
    have hlt : i < msgs.length := Nat.lt_of_lt_of_le hi hk
    refine ⟨msgs[i], List.getElem?_eq_getElem hlt, ?_⟩
    simp [ackAt, List.getElem?_eq_getElem hlt]
    exact ⟨rfl, rfl⟩
  · rw [htrace, ackedIDs_append, ackedIDs_append, ackedIDs_blocks lib svc msgs w k hk,
      ackedIDs_handlerAt, ackedIDs_warnAt]
    simp
  · rw [htrace, handlerCalls_append, handlerCalls_append, handlerCalls_blocks,
      handlerCalls_warnAt, List.range_succ, List.flatMap_append]
    simp

/-- C21, on the batch of three messages whose second handler fails: the first handler, the
first acknowledge, the second handler and the warning, in that order, and nothing for the
third message. -/
theorem processMessages_sequential_witness :
    (∃ k, k ≤ batchSecondFails.length ∧
      (∀ i, i < k → resultAt demoJson demoService batchSecondFails [] i = some none) ∧
      (k < batchSecondFails.length →
        ∃ err, resultAt demoJson demoService batchSecondFails [] k = some (some err)) ∧
      (processMessages demoJson demoService batchSecondFails []).2 =
        (List.range k).flatMap
            (fun i => handlerAt demoJson demoService batchSecondFails [] i ++
              ackAt batchSecondFails i) ++
          (handlerAt demoJson demoService batchSecondFails [] k ++
            warnAt demoJson demoService batchSecondFails [] k)) ∧
    (processMessages demoJson demoService batchSecondFails []).2 =
      [Effect.handler (Call.RemoveConfigHandler "t1"),
       Effect.XAck "mainflux.things" "mainflux.bootstrap" "1-0",
       Effect.handler (Call.RemoveConfigHandler "bad"),
       Effect.log .warn "Failed to handle event sourcing: remove failed"] :=
  ⟨(processMessages_sequential demoJson demoService batchSecondFails []).imp
      (fun _ h => ⟨h.1, h.2.1, h.2.2.1, h.2.2.2.1⟩),
   by decide⟩

end consumer

namespace server

/-! ## `Monitor` -/

theorem stopCalls_append (a b : List Effect) : stopCalls (a ++ b) = stopCalls a ++ stopCalls b := by
  simp [stopCalls]

/-- The range loop calls `Stop` once per server, in order, and threads the world through. -/
theorem stopServers_spec {ω : Type} (servers : List (GracefulServer ω)) :
    ∀ (i : Nat) (w : ω),
      stopCalls (stopServers servers i w).2 =
        (List.range' i servers.length).map (fun k => Effect.Stop k defaultServerStopTimeout) ∧
      (stopServers servers i w).1 =
        servers.foldl (fun s srv => (srv.Stop defaultServerStopTimeout s).2) w := by
  induction servers with
  | nil => intro i w; exact ⟨rfl, rfl⟩
  | cons srv rest ih =>
    intro i w
    obtain ⟨h1, h2⟩ := ih (i + 1) (srv.Stop defaultServerStopTimeout w).2
    constructor
    · simp only [stopServers, stopCalls_append, h1, List.length_cons, List.range'_succ,
        List.map_cons]
      cases (srv.Stop defaultServerStopTimeout w).1 <;> rfl
    · simp only [stopServers, h2, List.foldl_cons]

/-- C2. When the first event `Monitor` receives is a signal, it returns, and by then it has
called `Stop` exactly once on each of the `N` registered servers, in registration order, each
time with the timeout of 30 seconds, whatever each `Stop` returns; the exit line is logged
after the last call. -/
theorem Monitor_signal_stops_all {ω : Type} (servers : List (GracefulServer ω)) (w : ω)
    (receivedSignal : String) (later : List Event) :
    (Monitor (.signal receivedSignal :: later) servers w).returned = true ∧
    stopCalls (Monitor (.signal receivedSignal :: later) servers w).trace =
      (List.range servers.length).map (fun k => Effect.Stop k (30 * 1000000000)) ∧
    (Monitor (.signal receivedSignal :: later) servers w).world =
      servers.foldl (fun s srv => (srv.Stop (30 * 1000000000) s).2) w ∧
    (Monitor (.signal receivedSignal :: later) servers w).trace.getLast? =
      some (Effect.log .info "Graceful server monitor exit") := by
  obtain ⟨h1, h2⟩ := stopServers_spec servers 0 w
  refine ⟨rfl, ?_, ?_, ?_⟩
  · simp only [Monitor, stopCalls_append, h1, List.range_eq_range']
    simp [stopCalls, defaultServerStopTimeout, Second]
  · simp only [Monitor, h2]
    rfl
  · have h : (Monitor (.signal receivedSignal :: later) servers w).trace =
        ([Effect.log .info "Graceful server monitor started"] ++
          [Effect.log .info ("Received signal: " ++ receivedSignal)] ++
          (stopServers servers 0 w).2) ++ [Effect.log .info "Graceful server monitor exit"] := rfl
    rw [h, List.getLast?_concat]

/-- C3. When the first event `Monitor` receives is an error on the error channel, it logs
that error and returns without calling `Stop` on any server: the world of the servers is
untouched and the trace holds the two log lines only. -/
theorem Monitor_error_stops_none {ω : Type} (servers : List (GracefulServer ω)) (w : ω)
    (err : Option GoError) (later : List Event) :
    (Monitor (.error err :: later) servers w).returned = true ∧
    (Monitor (.error err :: later) servers w).world = w ∧
    stopCalls (Monitor (.error err :: later) servers w).trace = [] ∧
    (Monitor (.error err :: later) servers w).trace =
      [Effect.log .info "Graceful server monitor started",
       Effect.log .error ("Graceful server monitor exiting due to error: " ++ fmtS err)] :=
  ⟨rfl, rfl, rfl, rfl⟩

theorem logLines_append (a b : List Effect) : logLines (a ++ b) = logLines a ++ logLines b := by
  simp [logLines, List.filterMap_append]

/-- The range loop logs one error line per failing `Stop`, in order, and nothing else. -/
theorem logLines_stopServers {ω : Type} (servers : List (GracefulServer ω)) :
    ∀ (i : Nat) (w : ω),
      logLines (stopServers servers i w).2 =
        (stopResults servers w).filterMap
          (fun r => r.map (fun err => (Level.error, "Error during server stop: " ++ err.msg))) := by
  induction servers with
  | nil => intro i w; rfl
  | cons srv rest ih =>
    intro i w
    simp only [stopServers, stopResults, logLines_append, ih]
    cases (srv.Stop defaultServerStopTimeout w).1 <;> rfl

/-- C16. The log lines of `Monitor` itself are, on a signal: the start line, the line of the
signal received, one error line for each server whose `Stop` returned an error, in
registration order and none for the others, then the exit line; and on an error event: the
start line followed by the line of the error only. -/
theorem Monitor_log_lines {ω : Type} (servers : List (GracefulServer ω)) (w : ω)
    (later : List Event) :
    (∀ receivedSignal,
      logLines (Monitor (.signal receivedSignal :: later) servers w).trace =
        [(Level.info, "Graceful server monitor started"),
         (Level.info, "Received signal: " ++ receivedSignal)] ++
        (stopResults servers w).filterMap
          (fun r => r.map (fun err => (Level.error, "Error during server stop: " ++ err.msg))) ++
        [(Level.info, "Graceful server monitor exit")]) ∧
    (∀ err,
      logLines (Monitor (.error (some err) :: later) servers w).trace =
        [(Level.info, "Graceful server monitor started"),
         (Level.error, "Graceful server monitor exiting due to error: " ++ err.msg)]) := by
  constructor
  · intro receivedSignal
    simp only [Monitor, logLines_append, logLines_stopServers]
    rfl
  · intro err
    rfl

/-! ## `HTTPServer` and `GRPCServer` -/

/-- C13, as stated, fails on a server created with a certificate path and no key path:
`Start` calls `ListenAndServeTLS` although the two are not both supplied. -/
theorem Start_tls_with_certificate_only :
    ¬ (Action.ListenAndServeTLS ":8080" "cert.pem" "" ∈
          (NewHTTPServer ":8080" "cert.pem" "").Start none ↔
        ("cert.pem" ≠ "" ∧ ("" : String) ≠ "")) ∧
    Action.ListenAndServe ":8080" ∉ (NewHTTPServer ":8080" "cert.pem" "").Start none := by
  decide

/-- C13, amended. `Start` serves over the encrypted transport (`ListenAndServeTLS` with the
two paths) exactly when the certificate path or the key path is non-empty, and serves plain
HTTP (`ListenAndServe`) exactly when both are empty. -/
theorem Start_tls_iff (address certPath keyPath : String) (served : Option (Option GoError)) :
    (Action.ListenAndServeTLS address certPath keyPath ∈
        (NewHTTPServer address certPath keyPath).Start served ↔
      (certPath ≠ "" ∨ keyPath ≠ "")) ∧
    (Action.ListenAndServe address ∈ (NewHTTPServer address certPath keyPath).Start served ↔
      (certPath = "" ∧ keyPath = "")) ∧
    ((∃ c k, Action.ListenAndServeTLS address c k ∈
        (NewHTTPServer address certPath keyPath).Start served) ↔
      (certPath ≠ "" ∨ keyPath ≠ "")) := by
  by_cases h : certPath ≠ "" ∨ keyPath ≠ ""
  · have h' : ¬ (certPath = "" ∧ keyPath = "") := by
      rintro ⟨h1, h2⟩
      rcases h with h | h
      · exact h h1
      · exact h h2
    simp only [HTTPServer.Start, NewHTTPServer, if_pos h]
    cases served <;> simp [h, h']
  · have h' : certPath = "" ∧ keyPath = "" := by
      constructor
      · by_contra hc; exact h (Or.inl hc)
      · by_contra hk; exact h (Or.inr hk)
    simp only [HTTPServer.Start, NewHTTPServer, if_neg h]
    cases served <;> simp [h, h']

/-- C14. Given a nil registration function, `GRPCServer.Start` writes exactly one error,
`Register service function is nil`, to the error channel and does nothing else: no
registration, no listener, no serving. Given a function, it calls it exactly once, and does
so before binding the listener. -/
theorem Start_registers_once {ω : Type} (s : GRPCServer) (listenErr : Option GoError)
    (served : Option (Option GoError)) (w : ω) :
    s.Start (none : Option (ω → ω)) listenErr served w =
      (w, [Action.sendErrs (some ⟨0, "Register service function is nil"⟩)]) ∧
    ∀ f : ω → ω,
      (s.Start (some f) listenErr served w).1 = f w ∧
      ∃ t, (s.Start (some f) listenErr served w).2 =
          Action.registerServiceFn :: Action.Listen "tcp" s.address :: t ∧
        Action.registerServiceFn ∉ t ∧ ∀ n a, Action.Listen n a ∉ t := by
  refine ⟨rfl, ?_⟩
  intro f
  refine ⟨?_, ?_⟩
  · cases listenErr <;> rfl
  · cases listenErr with
    | some err => exact ⟨_, rfl, by simp, by simp⟩
    | none =>
      cases served with
      | none => exact ⟨_, rfl, by simp, by simp⟩
      | some r => exact ⟨_, rfl, by simp, by simp⟩

/-- C15. `HTTPServer.Stop` returns nil exactly when the shutdown succeeds or reports
`context.DeadlineExceeded`, hence a non-nil error exactly when the shutdown fails with any
other error; `GRPCServer.Stop` returns nil whether the graceful stop completes or the timeout
elapses first. -/
theorem Stop_deadline_is_no_failure (s : HTTPServer) (g : GRPCServer)
    (fmtV : Duration → String) (timeout : Duration) (shutdownErr : Option GoError) :
    ((s.Stop timeout shutdownErr).1 = none ↔
      (shutdownErr = none ∨ shutdownErr = some DeadlineExceeded)) ∧
    ((∃ err, (s.Stop timeout shutdownErr).1 = some err) ↔
      ∃ err, shutdownErr = some err ∧ err ≠ DeadlineExceeded) ∧
    ∀ ev, (g.Stop fmtV timeout ev).1 = none := by
  refine ⟨?_, ?_, ?_⟩
  · by_cases h : shutdownErr = some DeadlineExceeded
    · simp [HTTPServer.Stop, h]
    · cases shutdownErr with
      | none => simp [HTTPServer.Stop]
      | some err => simp [HTTPServer.Stop, h]
  · by_cases h : shutdownErr = some DeadlineExceeded
    · simp [HTTPServer.Stop, h]
    · cases shutdownErr with
      | none => simp [HTTPServer.Stop]
      | some err =>
        have hne : err ≠ DeadlineExceeded := fun he => h (by rw [he])
        simp [HTTPServer.Stop, h, hne]
  · intro ev
    cases ev <;> rfl

end server

namespace users

/-! ## The language of `emailRe` -/

theorem mem_splits (s : List Nat) : ∀ (u v : List Nat), (u, v) ∈ splits s ↔ u ++ v = s := by
  induction s with
  | nil =>
    intro u v
    simp [splits]
  | cons c s ih =>
    intro u v
    cases u with
    | nil => simp [splits]
    | cons a u' =>
      simp only [splits, List.mem_cons, Prod.mk.injEq, List.mem_map, Prod.exists,
        List.cons_append, List.cons.injEq]
      constructor
      · rintro (⟨h, _⟩ | ⟨x, y, hm, ⟨hc, hx⟩, hy⟩)
        · cases h
        · subst hc hx hy
          exact ⟨rfl, (ih x y).mp hm⟩
      · rintro ⟨hc, h⟩
        exact Or.inr ⟨u', v, (ih u' v).mpr h, ⟨hc.symm, rfl⟩, rfl⟩

theorem any_splits (s : List Nat) (f : List Nat × List Nat → Bool) :
    (splits s).any f = true ↔ ∃ u v, u ++ v = s ∧ f (u, v) = true := by
  simp only [List.any_eq_true, Prod.exists]
  constructor
  · rintro ⟨u, v, hm, hf⟩
    exact ⟨u, v, (mem_splits s u v).mp hm, hf⟩
  · rintro ⟨u, v, hs, hf⟩
    exact ⟨u, v, (mem_splits s u v).mpr hs, hf⟩

theorem accepts_cls (ranges : List (Nat × Nat)) (s : List Nat) :
    (Regexp.cls ranges).accepts s = true ↔ ∃ r, s = [r] ∧ inClass ranges r = true := by
  rcases s with _ | ⟨a, _ | ⟨b, t⟩⟩ <;> simp [Regexp.accepts]

theorem accepts_cat (a b : Regexp) (s : List Nat) :
    (Regexp.cat a b).accepts s = true ↔
      ∃ u v, u ++ v = s ∧ a.accepts u = true ∧ b.accepts v = true := by
  simp only [Regexp.accepts, any_splits, Bool.and_eq_true]

theorem accepts_alt (a b : Regexp) (s : List Nat) :
    (Regexp.alt a b).accepts s = true ↔ (a.accepts s = true ∨ b.accepts s = true) := by
  simp only [Regexp.accepts, Bool.or_eq_true]

theorem accepts_star (a : Regexp) (s : List Nat) :
    (Regexp.star a).accepts s = starAccepts (fun t => a.accepts t) s.length s := by
  rw [Regexp.accepts]

theorem accepts_star_nil (a : Regexp) : (Regexp.star a).accepts [] = true := by
  rw [accepts_star]
  rfl

/-- A text in `emailCharClass` is one code point accepted on its own, or a code point of the
ASCII class followed by a control character. -/
theorem accepts_emailCharClass (t : List Nat) :
    emailCharClass.accepts t = true ↔
      (∃ r, t = [r] ∧ single r = true) ∨
      (∃ a b, t = [a, b] ∧ inClass asciiClass a = true ∧ inClass controlClass b = true) := by
  simp only [emailCharClass, accepts_alt, accepts_cat, accepts_cls, single, Bool.or_eq_true]
  constructor
  · rintro (⟨u, v, huv, ⟨a, rfl, ha⟩, ⟨b, rfl, hb⟩⟩ | ⟨r, rfl, h⟩ | ⟨r, rfl, h⟩ | ⟨r, rfl, h⟩ |
      ⟨r, rfl, h⟩)
    · exact Or.inr ⟨a, b, huv.symm, ha, hb⟩
    · exact Or.inl ⟨r, rfl, Or.inl (Or.inl (Or.inl h))⟩
    · exact Or.inl ⟨r, rfl, Or.inl (Or.inl (Or.inr h))⟩
    · exact Or.inl ⟨r, rfl, Or.inl (Or.inr h)⟩
    · exact Or.inl ⟨r, rfl, Or.inr h⟩
  · rintro (⟨r, rfl, (((h | h) | h) | h)⟩ | ⟨a, b, rfl, ha, hb⟩)
    · exact Or.inr (Or.inl ⟨r, rfl, h⟩)
    · exact Or.inr (Or.inr (Or.inl ⟨r, rfl, h⟩))
    · exact Or.inr (Or.inr (Or.inr (Or.inl ⟨r, rfl, h⟩)))
    · exact Or.inr (Or.inr (Or.inr (Or.inr ⟨r, rfl, h⟩)))
    · exact Or.inl ⟨[a], [b], rfl, ⟨a, rfl, ha⟩, ⟨b, rfl, hb⟩⟩

/-- The code points of the ASCII class are accepted on their own as well. -/
theorem single_of_asciiClass (r : Nat) (h : inClass asciiClass r = true) : single r = true := by
  simp only [inClass, asciiClass, List.any_cons, List.any_nil, Bool.or_false, Bool.or_eq_true,
    Bool.and_eq_true, decide_eq_true_eq] at h
  simp only [single, inClass, unicodeClass, List.any_cons, List.any_nil, Bool.or_false,
    Bool.or_eq_true, Bool.and_eq_true, decide_eq_true_eq]
  omega

/-- A control character is not in the ASCII class. -/
theorem not_asciiClass_of_controlClass (r : Nat) (h : inClass controlClass r = true) :
    inClass asciiClass r = false := by
  simp only [inClass, controlClass, List.any_cons, List.any_nil, Bool.or_false, Bool.or_eq_true,
    Bool.and_eq_true, decide_eq_true_eq] at h
  rw [Bool.eq_false_iff]
  intro h'
  simp only [inClass, asciiClass, List.any_cons, List.any_nil, Bool.or_false, Bool.or_eq_true,
    Bool.and_eq_true, decide_eq_true_eq] at h'
  omega

theorem scan_mono (p : Bool) (s : List Nat) (h : scan false s = true) : scan p s = true := by
  cases s with
  | nil => rfl
  | cons r rest =>
    simp only [scan, Bool.and_false, Bool.or_false, Bool.and_eq_true] at h
    simp only [scan, Bool.and_eq_true, Bool.or_eq_true]
    exact ⟨Or.inl h.1, h.2⟩

theorem scan_append (x y : List Nat) :
    ∀ p, scan p x = true → scan false y = true → scan p (x ++ y) = true := by
  induction x with
  | nil => intro p _ hy; exact scan_mono p y hy
  | cons r rest ih =>
    intro p hx hy
    simp only [scan, Bool.and_eq_true] at hx
    simp only [List.cons_append, scan, Bool.and_eq_true]
    exact ⟨hx.1, ih _ hx.2 hy⟩

theorem scan_left (x y : List Nat) : ∀ p, scan p (x ++ y) = true → scan p x = true := by
  induction x with
  | nil => intro p _; rfl
  | cons r rest ih =>
    intro p h
    simp only [List.cons_append, scan, Bool.and_eq_true] at h
    simp only [scan, Bool.and_eq_true]
    exact ⟨h.1, ih _ h.2⟩

theorem scan_right (x : List Nat) (c : Nat) (y : List Nat) :
    ∀ p, scan p (x ++ c :: y) = true → scan (inClass asciiClass c) y = true := by
  induction x with
  | nil =>
    intro p h
    simp only [List.nil_append, scan, Bool.and_eq_true] at h
    exact h.2
  | cons r rest ih =>
    intro p h
    simp only [List.cons_append, scan, Bool.and_eq_true] at h
    exact ih _ h.2

/-- A text in `emailCharClass` is not empty and passes the check. -/
theorem scan_of_emailCharClass (t : List Nat) (h : emailCharClass.accepts t = true) :
    t ≠ [] ∧ scan false t = true := by
  rcases (accepts_emailCharClass t).mp h with ⟨r, rfl, hr⟩ | ⟨a, b, rfl, ha, hb⟩
  · simp [scan, hr]
  · simp [scan, single_of_asciiClass a ha, ha, hb]

/-- The repetition of `emailCharClass` is what the check decides. -/
theorem starAccepts_emailCharClass :
    ∀ (fuel : Nat) (s : List Nat), s.length ≤ fuel →
      starAccepts (fun t => emailCharClass.accepts t) fuel s = scan false s := by
  intro fuel
  induction fuel with
  | zero =>
    intro s hs
    cases s with
    | nil => rfl
    | cons c s' => simp at hs
  | succ fuel ih =>
    intro s hs
    cases s with
    | nil => rfl
    | cons c s' =>
      have hlen : s'.length ≤ fuel := by simpa using hs
      rw [Bool.eq_iff_iff]
      simp only [starAccepts, any_splits, Bool.and_eq_true]
      constructor
      · rintro ⟨u, v, huv, hc, hv⟩
        have hvlen : v.length ≤ fuel := by
          have : v.length ≤ s'.length := by rw [← huv]; simp
          omega
        rw [ih v hvlen] at hv
        have htok := scan_of_emailCharClass (c :: u) hc
        have := scan_append (c :: u) v false htok.2 hv
        rw [← huv]
        simpa using this
      · intro h
        simp only [scan, Bool.and_false, Bool.or_false, Bool.and_eq_true] at h
        obtain ⟨hc, hrest⟩ := h
        cases s' with
        | nil =>
          exact ⟨[], [], rfl, (accepts_emailCharClass [c]).mpr (Or.inl ⟨c, rfl, hc⟩), by
            simp [starAccepts]⟩
        | cons b v =>
          simp only [scan, Bool.and_eq_true, Bool.or_eq_true] at hrest
          obtain ⟨hb, hv⟩ := hrest
          have hvlen : v.length ≤ fuel := by
            simp only [List.length_cons] at hlen
            omega
          rcases hb with hb | hb
          · refine ⟨[], b :: v, rfl,
              (accepts_emailCharClass [c]).mpr (Or.inl ⟨c, rfl, hc⟩), ?_⟩
            rw [ih (b :: v) hlen]
            simp only [scan, Bool.and_false, Bool.or_false, Bool.and_eq_true]
            exact ⟨hb, hv⟩
          · obtain ⟨hctl, hasc⟩ := hb
            refine ⟨[b], v, rfl,
              (accepts_emailCharClass [c, b]).mpr (Or.inr ⟨c, b, rfl, hasc, hctl⟩), ?_⟩
            rw [ih v hvlen]
            rw [not_asciiClass_of_controlClass b hctl] at hv
            exact hv

theorem accepts_star_emailCharClass (s : List Nat) :
    (Regexp.star emailCharClass).accepts s = scan false s := by
  rw [accepts_star]
  exact starAccepts_emailCharClass s.length s (Nat.le_refl _)

/-- One or more repetitions of `emailCharClass`: a text that is not empty and passes the
check. -/
theorem accepts_plus_emailCharClass (s : List Nat) :
    emailCharClass.plus.accepts s = true ↔ s ≠ [] ∧ scan false s = true := by
  simp only [Regexp.plus, accepts_cat, accepts_star_emailCharClass]
  constructor
  · rintro ⟨u, v, huv, hu, hv⟩
    obtain ⟨hne, hsu⟩ := scan_of_emailCharClass u hu
    subst huv
    exact ⟨by simp [hne], scan_append u v false hsu hv⟩
  · rintro ⟨hne, hs⟩
    cases s with
    | nil => exact absurd rfl hne
    | cons c s' =>
      have h := starAccepts_emailCharClass (s'.length + 1) (c :: s') (by simp)
      rw [hs] at h
      simp only [starAccepts, any_splits, Bool.and_eq_true] at h
      obtain ⟨u, v, huv, hc, hv⟩ := h
      have hvlen : v.length ≤ s'.length := by rw [← huv]; simp
      rw [starAccepts_emailCharClass s'.length v hvlen] at hv
      exact ⟨c :: u, v, by rw [← huv]; rfl, hc, hv⟩

/-- A repetition passes the check when each of its parts does. -/
theorem scan_of_starAccepts (m : List Nat → Bool)
    (hm : ∀ t, m t = true → scan false t = true) :
    ∀ (fuel : Nat) (s : List Nat), starAccepts m fuel s = true → scan false s = true := by
  intro fuel
  induction fuel with
  | zero =>
    intro s h
    cases s with
    | nil => rfl
    | cons c s' => simp [starAccepts] at h
  | succ fuel ih =>
    intro s h
    cases s with
    | nil => rfl
    | cons c s' =>
      simp only [starAccepts, any_splits, Bool.and_eq_true] at h
      obtain ⟨u, v, huv, hc, hv⟩ := h
      have := scan_append (c :: u) v false (hm _ hc) (ih v hv)
      rw [← huv]
      simpa using this

/-- The repetition of a dot followed by `emailCharClass` passes the check: the dot is
accepted on its own. -/
theorem scan_of_dotted (s : List Nat)
    (h : (Regexp.star (.cat (.cls [(0x2E, 0x2E)]) emailCharClass)).accepts s = true) :
    scan false s = true := by
  rw [accepts_star] at h
  refine scan_of_starAccepts _ ?_ s.length s h
  intro t ht
  rw [accepts_cat] at ht
  obtain ⟨u, v, huv, hu, hv⟩ := ht
  obtain ⟨r, rfl, hr⟩ := (accepts_cls _ u).mp hu
  have hr' : r = 0x2E := by
    simp only [inClass, List.any_cons, List.any_nil, Bool.or_false, Bool.and_eq_true,
      decide_eq_true_eq] at hr
    omega
  subst hr'
  rw [← huv]
  exact scan_append [0x2E] v false (by decide) (scan_of_emailCharClass v hv).2

theorem hasInner_iff (c : Nat) (rs : List Nat) :
    hasInner c rs = true ↔ ∃ pre post, rs = pre ++ c :: post ∧ pre ≠ [] ∧ post ≠ [] := by
  simp only [hasInner, decide_eq_true_eq]
  constructor
  · intro h
    cases rs with
    | nil => simp at h
    | cons a t =>
      simp only [List.tail_cons] at h
      have hne : t ≠ [] := by
        intro ht
        simp [ht] at h
      obtain ⟨x, y, hxy⟩ := List.append_of_mem h
      obtain ⟨l, hl⟩ : ∃ l, t = t.dropLast ++ [l] :=
        ⟨t.getLast hne, (List.dropLast_append_getLast hne).symm⟩
      refine ⟨a :: x, y ++ [l], ?_, by simp, by simp⟩
      rw [hl, hxy]
      simp
  · rintro ⟨pre, post, rfl, hpre, hpost⟩
    cases pre with
    | nil => exact absurd rfl hpre
    | cons a x =>
      simp only [List.cons_append, List.tail_cons]
      rw [List.dropLast_append_of_ne_nil x (by simp), List.dropLast_cons_of_ne_nil hpost]
      simp

/-- The language of `emailRe`: the texts that pass the check and hold an `@` that is neither
their first nor their last code point. -/
theorem accepts_emailRe (rs : List Nat) :
    emailRe.accepts rs = (scan false rs && hasInner 0x40 rs) := by
  rw [Bool.eq_iff_iff, Bool.and_eq_true, hasInner_iff]
  simp only [emailRe, accepts_cat, accepts_plus_emailCharClass]
  constructor
  · rintro ⟨u, r1, h1, ⟨hune, hu⟩, d1, r2, h2, hd1, a, r3, h3, ha, v, d2, h4, ⟨hvne, hv⟩, hd2⟩
    obtain ⟨r, rfl, hr⟩ := (accepts_cls _ a).mp ha
    have hr' : r = 0x40 := by
      simp only [inClass, List.any_cons, List.any_nil, Bool.or_false, Bool.and_eq_true,
        decide_eq_true_eq] at hr
      omega
    subst hr'
    have hsd1 := scan_of_dotted d1 hd1
    have hsd2 := scan_of_dotted d2 hd2
    subst h4 h3 h2 h1
    refine ⟨?_, u ++ d1, v ++ d2, by simp, by simp [hune], by simp [hvne]⟩
    refine scan_append u _ false hu (scan_append d1 _ false hsd1 ?_)
    exact scan_append [0x40] _ false (by decide) (scan_append v d2 false hv hsd2)
  · rintro ⟨hs, pre, post, rfl, hpre, hpost⟩
    have hspre := scan_left pre _ false hs
    have hspost := scan_right pre 0x40 post false hs
    have hat : inClass asciiClass 0x40 = false := by decide
    rw [hat] at hspost
    exact ⟨pre, 0x40 :: post, rfl, ⟨hpre, hspre⟩, [], 0x40 :: post, rfl, accepts_star_nil _,
      [0x40], post, rfl, (accepts_cls _ _).mpr ⟨0x40, rfl, by decide⟩, post, [], by simp,
      ⟨hpost, hspost⟩, accepts_star_nil _⟩

theorem MatchString_emailRe (s : Bytes) :
    emailRe.MatchString s = (scan false (decodeRunes s) && hasInner 0x40 (decodeRunes s)) := by
  rw [Regexp.MatchString, accepts_emailRe]

/-! ## `isEmail` and `Validate` -/

/-- The checks of `isEmail`, with the match against `emailRe` replaced by the check that
decides its language. -/
theorem isEmail_eq (email : Bytes) :
    isEmail email =
      (decide (1 ≤ LastIndex email 0x40) && decide (email.length ≤ 254) &&
        decide ((email.take (LastIndex email 0x40).toNat).length ≤ 64) &&
        decide (((email.drop ((LastIndex email 0x40).toNat + 1)).length : Int) ≤
          254 - ((email.take (LastIndex email 0x40).toNat).length : Int) - 1) &&
        (scan false (decodeRunes email) && hasInner 0x40 (decodeRunes email))) := by
  unfold isEmail
  simp only [MatchString_emailRe, maxEmailLength, maxLocalLength]
  generalize (scan false (decodeRunes email) && hasInner 0x40 (decodeRunes email)) = m
  generalize LastIndex email 0x40 = a
  generalize (List.take a.toNat email).length = ll
  generalize (List.drop (a.toNat + 1) email).length = hl
  generalize email.length = n
  split_ifs with h1 h2 h3
  · have : decide (1 ≤ a) = false := decide_eq_false (by omega)
    rw [this]
    rfl
  · rcases h2 with h | h | h
    · have : decide (n ≤ 254) = false := decide_eq_false (by omega)
      rw [this]
      simp
    · have : decide (ll ≤ 64) = false := decide_eq_false (by omega)
      rw [this]
      simp
    · have : decide ((hl : Int) ≤ 254 - (ll : Int) - 1) = false :=
        decide_eq_false (by omega)
      rw [this]
      simp
  · have : m = false := by simpa using h3
    rw [this]
    simp
  · have hm : m = true := by simpa using h3
    have e1 : decide (1 ≤ a) = true := decide_eq_true (by omega)
    have e2 : decide (n ≤ 254) = true := decide_eq_true (by omega)
    have e3 : decide (ll ≤ 64) = true := decide_eq_true (by omega)
    have e4 : decide ((hl : Int) ≤ 254 - (ll : Int) - 1) = true := decide_eq_true (by omega)
    rw [hm, e1, e2, e3, e4]
    rfl

theorem isEmail_nil : isEmail [] = false := by
  rw [isEmail_eq]
  rfl

theorem LastIndex_of_not_mem (h : Bytes) (c : Nat) (hc : c ∉ h) : LastIndex h c = -1 := by
  induction h with
  | nil => rfl
  | cons b t ih =>
    have hb : b ≠ c := fun e => hc (by simp [e])
    have ht : c ∉ t := fun e => hc (by simp [e])
    simp [LastIndex, ih ht, hb]

/-- The index of the `@` that has no `@` after it. -/
theorem LastIndex_append (l h : Bytes) (c : Nat) (hc : c ∉ h) :
    LastIndex (l ++ c :: h) c = l.length := by
  induction l with
  | nil => simp [LastIndex, LastIndex_of_not_mem h c hc]
  | cons a t ih =>
    show LastIndex (a :: (t ++ c :: h)) c = _
    rw [LastIndex, ih]
    simp

theorem Validate_of_not_isEmail (u : User) (h : isEmail u.Email = false) :
    u.Validate = some ErrMalformedEntity := by
  simp only [User.Validate, h]
  split_ifs <;> first | rfl | simp_all

set_option maxRecDepth 100000

/-- C17. `Validate` returns `ErrMalformedEntity` for every user whose e-mail is empty or whose
password is empty, and nil for every user with a non-empty password and an e-mail that
`isEmail` accepts, such as the e-mail of the tests with the password `password`; the metadata
has no influence on the result. -/
theorem Validate_empty_or_valid :
    (∀ u : User, u.Email = [] ∨ u.Password = [] → u.Validate = some ErrMalformedEntity) ∧
    (∀ u : User, u.Password ≠ [] → isEmail u.Email = true → u.Validate = none) ∧
    isEmail email = true ∧
    User.Validate ⟨email, password, none⟩ = none ∧
    (∀ (u : User) (m : consumer.Metadata),
      User.Validate { u with Metadata := m } = u.Validate) := by
  have hvalid : ∀ u : User, u.Password ≠ [] → isEmail u.Email = true → u.Validate = none := by
    intro u hp he
    have hne : u.Email ≠ [] := by
      intro h
      rw [h, isEmail_nil] at he
      cases he
    simp [User.Validate, hne, hp, he]
  have hemail : isEmail email = true := by
    rw [isEmail_eq]
    decide
  refine ⟨?_, hvalid, hemail, hvalid _ (by decide) hemail, fun _ _ => rfl⟩
  intro u h
  simp [User.Validate, h]

/-- C17, on a user without e-mail and on the user of the tests. -/
theorem Validate_empty_or_valid_witness :
    User.Validate ⟨[], password, none⟩ = some ErrMalformedEntity ∧
    User.Validate ⟨email, [], some [("k", Value.nil)]⟩ = some ErrMalformedEntity ∧
    User.Validate ⟨email, password, some [("k", Value.nil)]⟩ = none :=
  ⟨Validate_empty_or_valid.1 ⟨[], password, none⟩ (Or.inl rfl),
   Validate_empty_or_valid.1 ⟨email, [], some [("k", Value.nil)]⟩ (Or.inr rfl),
   Validate_empty_or_valid.2.1 ⟨email, password, some [("k", Value.nil)]⟩ (by decide)
     Validate_empty_or_valid.2.2.1⟩

/-- C18, evaluated on the e-mails of the tests: `Validate` returns nil for the e-mail with two
consecutive dots in the local part, for the one with two consecutive dots in the host part,
for the one that starts with a dot and for the one whose local part ends with a dot, as it
does for the e-mail with single dots between segments. The dot is a code point that
`emailCharClass` accepts on its own. -/
theorem Validate_accepts_misplaced_dots :
    User.Validate ⟨lit "user..email@example.com", password, none⟩ = none ∧
    User.Validate ⟨lit "useremail@example..com", password, none⟩ = none ∧
    User.Validate ⟨lit ".useremail@example.com", password, none⟩ = none ∧
    User.Validate ⟨lit "useremail.@example.com", password, none⟩ = none ∧
    User.Validate ⟨lit "user.ema.ill@example.com", password, none⟩ = none ∧
    single 0x2E = true := by
  simp only [User.Validate, isEmail_eq]
  decide

/-- C19. `Validate` returns `ErrMalformedEntity` for every e-mail of more than 254 bytes and
for every e-mail whose text before the last `@` takes more than 64 bytes, and returns nil
for the e-mails of the tests at the limits: the one whose local part takes 64 bytes for 60
code points, and the one of 254 bytes. Bytes are counted, not code points: a local part of
22 code points that takes 66 bytes is refused. -/
theorem Validate_length_limits :
    (∀ u : User, u.Email.length > 254 → u.Validate = some ErrMalformedEntity) ∧
    (∀ (u : User) (l h : Bytes), u.Email = l ++ 0x40 :: h → 0x40 ∉ h → l.length > 64 →
      u.Validate = some ErrMalformedEntity) ∧
    (LastIndex email64BLocal 0x40 = 64 ∧ (decodeRunes (email64BLocal.take 64)).length = 60 ∧
      User.Validate ⟨email64BLocal, password, none⟩ = none) ∧
    (email254B.length = 254 ∧ User.Validate ⟨email254B, password, none⟩ = none) ∧
    (LastIndex email66BLocal 0x40 = 66 ∧ (decodeRunes (email66BLocal.take 66)).length = 22 ∧
      User.Validate ⟨email66BLocal, password, none⟩ = some ErrMalformedEntity) := by
  refine ⟨?_, ?_, ?_, ?_, ?_⟩
  · intro u h
    apply Validate_of_not_isEmail
    rw [isEmail_eq]
    have : ¬ (u.Email.length ≤ 254) := by omega
    simp [this]
  · intro u l h hu hh hl
    apply Validate_of_not_isEmail
    rw [isEmail_eq, hu, LastIndex_append l h 0x40 hh]
    have : ¬ (l.length ≤ 64) := by omega
    simp [this]
  · refine ⟨by decide, by decide, ?_⟩
    simp only [User.Validate, isEmail_eq]
    decide
  · refine ⟨by decide, ?_⟩
    simp only [User.Validate, isEmail_eq]
    decide
  · refine ⟨by decide, by decide, ?_⟩
    simp only [User.Validate, isEmail_eq]
    decide

/-- C19, on an e-mail of 255 bytes and on an e-mail whose local part takes 65 bytes. -/
theorem Validate_length_limits_witness :
    User.Validate ⟨lit "user@" ++ List.replicate 250 0x61, password, none⟩ =
      some ErrMalformedEntity ∧
    User.Validate ⟨List.replicate 65 0x61 ++ 0x40 :: lit "example.com", password, none⟩ =
      some ErrMalformedEntity :=
  ⟨Validate_length_limits.1 ⟨lit "user@" ++ List.replicate 250 0x61, password, none⟩
      (by decide),
   Validate_length_limits.2.1
      ⟨List.replicate 65 0x61 ++ 0x40 :: lit "example.com", password, none⟩
      (List.replicate 65 0x61) (lit "example.com") rfl (by decide) (by decide)⟩

/-- An e-mail without `@`, and an e-mail with nothing before its last `@`, are refused. -/
theorem Validate_without_local (u : User) :
    (0x40 ∉ u.Email → u.Validate = some ErrMalformedEntity) ∧
    (∀ h : Bytes, u.Email = 0x40 :: h → 0x40 ∉ h → u.Validate = some ErrMalformedEntity) := by
  constructor
  · intro h
    apply Validate_of_not_isEmail
    rw [isEmail_eq, LastIndex_of_not_mem _ _ h]
    rfl
  · intro h hu hh
    apply Validate_of_not_isEmail
    have := LastIndex_append [] h 0x40 hh
    rw [isEmail_eq, hu]
    simp only [List.nil_append] at this
    rw [this]
    rfl

/-- C20, evaluated on `a@b@` and on `@@@`, which have nothing after their last `@`:
`Validate` returns nil, the first `@` serving as the separator and the last one being
accepted by `emailCharClass` on its own. It also returns nil when the local part is a
no-break space only, a code point of the class beyond ASCII. The e-mail without `@`, the one
with a blank local part and the one with a blank host part are refused. -/
theorem Validate_accepts_empty_host :
    (LastIndex (lit "a@b@") 0x40 = 3 ∧ (lit "a@b@").drop (3 + 1) = [] ∧
      User.Validate ⟨lit "a@b@", password, none⟩ = none) ∧
    (LastIndex (lit "@@@") 0x40 = 2 ∧ (lit "@@@").drop (2 + 1) = [] ∧
      User.Validate ⟨lit "@@@", password, none⟩ = none) ∧
    single 0x40 = true ∧
    (lit "\u00a0@example.com" = 0xC2 :: 0xA0 :: lit "@example.com" ∧
      User.Validate ⟨lit "\u00a0@example.com", password, none⟩ = none) ∧
    User.Validate ⟨lit "userexample.com", password, none⟩ = some ErrMalformedEntity ∧
    User.Validate ⟨lit " @example.com", password, none⟩ = some ErrMalformedEntity ∧
    User.Validate ⟨lit "user@ ", password, none⟩ = some ErrMalformedEntity := by
  simp only [User.Validate, isEmail_eq]
  decide

/-! ## The length checks of `isEmail` -/

/-- An index returned by `LastIndex` is below the length of the string. -/
theorem LastIndex_lt_length (s : Bytes) (c : Nat) (h : 0 ≤ LastIndex s c) :
    LastIndex s c < (s.length : Int) := by
  induction s with
  | nil => simp [LastIndex] at h
  | cons b t ih =>
    rw [LastIndex] at h ⊢
    by_cases ht : 0 ≤ LastIndex t c
    · have := ih ht
      simp only [ht, if_true, List.length_cons, Nat.cast_add, Nat.cast_one]
      omega
    · simp only [ht, if_false] at h ⊢
      by_cases hb : b = c
      · simp only [hb, if_true, List.length_cons, Nat.cast_add, Nat.cast_one]
        omega
      · simp [hb] at h

/-- With an `@` at index at least 1, the local part, the `@` and the host part make up the
whole string, so the host is too long exactly when the string is. -/
theorem hostLength_gt_iff (email : Bytes) (h : 1 ≤ LastIndex email 0x40) :
    (((email.drop ((LastIndex email 0x40).toNat + 1)).length : Int) >
        (maxEmailLength : Int) - ((email.take (LastIndex email 0x40).toNat).length : Int) - 1 ↔
      email.length > maxEmailLength) := by
  have hlt := LastIndex_lt_length email 0x40 (by omega)
  obtain ⟨n, hn⟩ := Int.eq_ofNat_of_zero_le (show 0 ≤ LastIndex email 0x40 by omega)
  rw [hn] at hlt h ⊢
  simp only [Int.toNat_ofNat, List.length_take, List.length_drop, maxEmailLength]
  have hn' : n < email.length := by exact_mod_cast hlt
  omega

theorem isEmail_eq_isEmailWithoutHostCheck (email : Bytes) :
    isEmail email = isEmailWithoutHostCheck email := by
  unfold isEmail isEmailWithoutHostCheck
  by_cases h1 : LastIndex email 0x40 < 1
  · simp only [h1, if_true]
  · have hiff := hostLength_gt_iff email (by omega)
    simp only [h1, if_false]
    by_cases h2 : email.length > maxEmailLength
    · simp only [h2, true_or, if_true]
    · have h4 : ¬ (((email.drop ((LastIndex email 0x40).toNat + 1)).length : Int) >
          (maxEmailLength : Int) - ((email.take (LastIndex email 0x40).toNat).length : Int) -
            1) := fun hc => h2 (hiff.mp hc)
      simp only [h2, h4, false_or, or_false]

/-- C22. In `isEmail` the check of the host length is redundant: for every string whose last
`@` is at index 1 or more, `hostLength > maxEmailLength - localLength - 1` holds if and only
if `len(email) > maxEmailLength`; hence `isEmail` equals, on every input, the function
obtained by deleting that condition. -/
theorem hostLength_check_redundant (email : Bytes) :
    (1 ≤ LastIndex email 0x40 →
      (((email.drop ((LastIndex email 0x40).toNat + 1)).length : Int) >
          (254 : Int) - ((email.take (LastIndex email 0x40).toNat).length : Int) - 1 ↔
        email.length > 254)) ∧
    isEmail email = isEmailWithoutHostCheck email :=
  ⟨fun h => hostLength_gt_iff email h, isEmail_eq_isEmailWithoutHostCheck email⟩

/-- C22, on an e-mail of 255 bytes whose `@` is at index 4: the host takes 250 bytes, more
than 254 - 4 - 1, and the e-mail is refused with or without the check of the host. -/
theorem hostLength_check_redundant_witness :
    LastIndex email255B 0x40 = 4 ∧
    (((email255B.drop ((LastIndex email255B 0x40).toNat + 1)).length : Int) >
        (254 : Int) - ((email255B.take (LastIndex email255B 0x40).toNat).length : Int) - 1 ↔
      email255B.length > 254) ∧
    email255B.length = 255 ∧
    isEmail email255B = isEmailWithoutHostCheck email255B :=
  ⟨by decide, (hostLength_check_redundant email255B).1 (by decide), by decide,
   (hostLength_check_redundant email255B).2⟩

end users

end Mainflux
